import Mathlib

/-!
Verification of the transaction-tracker job pipeline.

This file gives a shallow embedding, in Lean 4, of the core logic of the
transaction-tracker repository: the date normalizer and fingerprint
generator (src/lib/db.ts), the merchant categorization resolver
(src/lib/places.ts and the inline resolution block of processJob), the
transaction insert loop with its added/duplicates accounting, the
extraction-response parsing and truncated-JSON repair pass
(src/app/api/worker/route.ts and its bounded-concurrency variant), and
the durable job store operations (requeue of failed jobs, stuck-job
recovery, and the atomic claim of pending jobs).

SQL statements are modelled as pure transitions on an explicit store
state (a list of rows); each single SQL statement is one atomic
transition, matching the design document's stipulation that claiming is
"a single atomic conditional update-and-return against the durable
store".  JavaScript numbers that occur in the data path are modelled as
exact decimals, and JavaScript string primitives (toLowerCase, trim,
padStart, charCodeAt, the concrete regexes of the source) are embedded
as executable Lean functions over lists of characters.
-/

namespace TxTracker

/-! ## Character and string utilities (JavaScript primitives) -/

/-- Set of characters matched by JavaScript regular-expression `\s` and
removed by `String.prototype.trim`. -/
def isJsSpace (c : Char) : Bool :=
  c.toNat = 0x20 || c.toNat = 0x09 || c.toNat = 0x0a || c.toNat = 0x0d ||
  c.toNat = 0x0b || c.toNat = 0x0c || c.toNat = 0x00A0 || c.toNat = 0x1680 ||
  (0x2000 ≤ c.toNat && c.toNat ≤ 0x200A) ||
  c.toNat = 0x2028 || c.toNat = 0x2029 || c.toNat = 0x202F ||
  c.toNat = 0x205F || c.toNat = 0x3000 || c.toNat = 0xFEFF

/-- Characters matched by the regular-expression class `[A-Za-z]`. -/
def isAsciiAlpha (c : Char) : Bool :=
  ('A' ≤ c && c ≤ 'Z') || ('a' ≤ c && c ≤ 'z')

/-- JavaScript `String.prototype.trim` on a list of characters. -/
def trimChars (cs : List Char) : List Char :=
  ((cs.dropWhile isJsSpace).reverse.dropWhile isJsSpace).reverse

/-- JavaScript `String.prototype.toLowerCase`, restricted to the ASCII
letters that occur in the data handled here (`Char.toLower` agrees with
the JavaScript function on ASCII). -/
def lowerChars (cs : List Char) : List Char :=
  cs.map Char.toLower

/-- JavaScript `padStart (2, '0')` used by the date normalizer. -/
def pad2 (cs : List Char) : List Char :=
  List.replicate (2 - cs.length) '0' ++ cs

/-- Whether `pre` is a leading run of `s` (used to model
`String.prototype.includes`). -/
def listStartsWith (pre s : List Char) : Bool :=
  match pre, s with
  | [], _ => true
  | _ :: _, [] => false
  | a :: as, b :: bs => a == b && listStartsWith as bs

/-- JavaScript `String.prototype.includes`: `pat` occurs contiguously in
`s`. -/
def listContainsSub (s pat : List Char) : Bool :=
  if listStartsWith pat s then true
  else
    match s with
    | [] => false
    | _ :: t => listContainsSub t pat

/-! ## Date normalizer (`parseTransactionDate`, src/lib/db.ts lines 34-74)

The four anchored regular expressions of the source are embedded as
explicit matchers over the character list.  A greedy digit run followed
by a mandatory non-digit character is equivalent to the backtracking
search of the regex engine, because after any shorter digit prefix the
next character would still be a digit and could not match the required
separator. -/

/-- Matcher for `^(\d{1,2})\/(\d{1,2})\/(\d{4})$` (format `MM/DD/YYYY`). -/
def matchNumSlash (cs : List Char) : Option (List Char × List Char × List Char) :=
  let a := cs.takeWhile Char.isDigit
  let r1 := cs.dropWhile Char.isDigit
  if 1 ≤ a.length ∧ a.length ≤ 2 then
    match r1 with
    | '/' :: r2 =>
      let b := r2.takeWhile Char.isDigit
      let r3 := r2.dropWhile Char.isDigit
      if 1 ≤ b.length ∧ b.length ≤ 2 then
        match r3 with
        | '/' :: r4 =>
          let c := r4.takeWhile Char.isDigit
          let r5 := r4.dropWhile Char.isDigit
          if c.length = 4 ∧ r5 = [] then some (a, b, c) else none
        | _ => none
      else none
    | _ => none
  else none

/-- Matcher for `^(\d{1,2})-(\d{1,2})-(\d{4})$` (format `MM-DD-YYYY`). -/
def matchNumDash (cs : List Char) : Option (List Char × List Char × List Char) :=
  let a := cs.takeWhile Char.isDigit
  let r1 := cs.dropWhile Char.isDigit
  if 1 ≤ a.length ∧ a.length ≤ 2 then
    match r1 with
    | '-' :: r2 =>
      let b := r2.takeWhile Char.isDigit
      let r3 := r2.dropWhile Char.isDigit
      if 1 ≤ b.length ∧ b.length ≤ 2 then
        match r3 with
        | '-' :: r4 =>
          let c := r4.takeWhile Char.isDigit
          let r5 := r4.dropWhile Char.isDigit
          if c.length = 4 ∧ r5 = [] then some (a, b, c) else none
        | _ => none
      else none
    | _ => none
  else none

/-- Matcher for `^(\d{4})-(\d{1,2})-(\d{1,2})$` (format `YYYY-MM-DD`). -/
def matchIsoDash (cs : List Char) : Option (List Char × List Char × List Char) :=
  let a := cs.takeWhile Char.isDigit
  let r1 := cs.dropWhile Char.isDigit
  if a.length = 4 then
    match r1 with
    | '-' :: r2 =>
      let b := r2.takeWhile Char.isDigit
      let r3 := r2.dropWhile Char.isDigit
      if 1 ≤ b.length ∧ b.length ≤ 2 then
        match r3 with
        | '-' :: r4 =>
          let c := r4.takeWhile Char.isDigit
          let r5 := r4.dropWhile Char.isDigit
          if 1 ≤ c.length ∧ c.length ≤ 2 ∧ r5 = [] then some (a, b, c) else none
        | _ => none
      else none
    | _ => none
  else none

/-- The optional comma `,?` after the day capture. -/
def skipComma (r : List Char) : List Char :=
  match r with
  | ',' :: t => t
  | _ => r

/-- Matcher for `^([A-Za-z]+)\s+(\d{1,2}),?\s+(\d{4})$` (format
`Month D, YYYY`). -/
def matchMonthName (cs : List Char) : Option (List Char × List Char × List Char) :=
  let a := cs.takeWhile isAsciiAlpha
  let r1 := cs.dropWhile isAsciiAlpha
  if 1 ≤ a.length then
    let w1 := r1.takeWhile isJsSpace
    let r2 := r1.dropWhile isJsSpace
    if 1 ≤ w1.length then
      let b := r2.takeWhile Char.isDigit
      let r3 := r2.dropWhile Char.isDigit
      if 1 ≤ b.length ∧ b.length ≤ 2 then
        let r4 := skipComma r3
        let w2 := r4.takeWhile isJsSpace
        let r5 := r4.dropWhile isJsSpace
        if 1 ≤ w2.length then
          let c := r5.takeWhile Char.isDigit
          let r6 := r5.dropWhile Char.isDigit
          if c.length = 4 ∧ r6 = [] then some (a, b, c) else none
        else none
      else none
    else none
  else none

/-- Month-name table of the source, with lookup keyed on the lowercased
captured name (the JavaScript object-literal lookup `months[...]`). -/
def monthNames : List (List Char × List Char) :=
  [ ("jan".data, "01".data), ("january".data, "01".data),
    ("feb".data, "02".data), ("february".data, "02".data),
    ("mar".data, "03".data), ("march".data, "03".data),
    ("apr".data, "04".data), ("april".data, "04".data),
    ("may".data, "05".data),
    ("jun".data, "06".data), ("june".data, "06".data),
    ("jul".data, "07".data), ("july".data, "07".data),
    ("aug".data, "08".data), ("august".data, "08".data),
    ("sep".data, "09".data), ("sept".data, "09".data), ("september".data, "09".data),
    ("oct".data, "10".data), ("october".data, "10".data),
    ("nov".data, "11".data), ("november".data, "11".data),
    ("dec".data, "12".data), ("december".data, "12".data) ]

/-- Lookup in the month-name table. -/
def monthLookup (k : List Char) : Option (List Char) :=
  (monthNames.find? (fun p => p.1 == k)).map (fun p => p.2)

/-- The date normalizer `parseTransactionDate` of src/lib/db.ts: the four
formats are tried in source order; a month-name match with an unknown
month falls through to the final `none` exactly as the source's
`if (result) return result` does. -/
def parseTransactionDate (dateStr : String) : Option String :=
  match matchNumSlash dateStr.data with
  | some (m1, m2, m3) => some (String.mk (m3 ++ '-' :: pad2 m1 ++ '-' :: pad2 m2))
  | none =>
    match matchNumDash dateStr.data with
    | some (m1, m2, m3) => some (String.mk (m3 ++ '-' :: pad2 m1 ++ '-' :: pad2 m2))
    | none =>
      match matchIsoDash dateStr.data with
      | some (m1, m2, m3) => some (String.mk (m1 ++ '-' :: pad2 m2 ++ '-' :: pad2 m3))
      | none =>
        match matchMonthName dateStr.data with
        | some (m1, m2, m3) =>
          match monthLookup (lowerChars m1) with
          | some mo => some (String.mk (m3 ++ '-' :: mo ++ '-' :: pad2 m2))
          | none => none
        | none => none

/-! ## Fingerprint generator (`generateTransactionId`, src/lib/db.ts lines 11-31) -/

/-- Exact decimal model of a JavaScript number appearing in a transaction
(amount or reward): the value is `mant / 10 ^ scale`.  The amounts handled
by the pipeline are finite decimals; for these, JavaScript's
number-to-string conversion (shortest round-trip printing) produces the
plain decimal notation computed by `JsNum.render` below. -/
structure JsNum where
  mant : Int
  scale : Nat
deriving DecidableEq

/-- Strip trailing zero digits of the fraction (the normalization JavaScript
printing performs implicitly). -/
def JsNum.normAux : Int → Nat → Int × Nat
  | m, 0 => (m, 0)
  | m, s + 1 => if m % 10 = 0 then JsNum.normAux (m / 10) s else (m, s + 1)

/-- JavaScript number-to-string for the exact decimals of `JsNum`
(the template-literal interpolation `${amount}` of the source). -/
def JsNum.render (x : JsNum) : List Char :=
  let p := JsNum.normAux x.mant x.scale
  let sign : List Char := if p.1 < 0 then ['-'] else []
  let digs := Nat.toDigits 10 p.1.natAbs
  if p.2 = 0 then sign ++ digs
  else
    let padded := List.replicate (p.2 + 1 - digs.length) '0' ++ digs
    sign ++ padded.take (padded.length - p.2) ++ '.' :: padded.drop (padded.length - p.2)

/-- UTF-16 code units of a character (JavaScript `charCodeAt` enumerates
these). -/
def utf16Units (c : Char) : List Nat :=
  if c.toNat < 0x10000 then [c.toNat]
  else [0xD800 + (c.toNat - 0x10000) / 0x400, 0xDC00 + (c.toNat - 0x10000) % 0x400]

/-- UTF-16 code-unit sequence of a character list. -/
def utf16Codes (cs : List Char) : List Nat :=
  (cs.map utf16Units).flatten

/-- Two's-complement 32-bit wrap of an integer: the value JavaScript's
`| 0` / `&` coercion (`hash = hash & hash` in the source) produces. -/
def wrap32 (z : Int) : Int :=
  let u := ((z % 4294967296) + 4294967296) % 4294967296
  if u < 2147483648 then u else u - 4294967296

/-- One step of the rolling hash: `hash = ((hash << 5) - hash) + char`
followed by `hash = hash & hash` (the shift itself is a 32-bit operation). -/
def hashStep (h : Int) (code : Nat) : Int :=
  wrap32 (wrap32 (h * 32) - h + code)

/-- The 32-bit rolling hash of the source, over UTF-16 code units,
starting from 0. -/
def hashOfCodes (codes : List Nat) : Int :=
  codes.foldl hashStep 0

/-- UTF-8 bytes of a character (`Buffer.from (data)` encodes UTF-8). -/
def utf8Bytes (c : Char) : List Nat :=
  let n := c.toNat
  if n < 0x80 then [n]
  else if n < 0x800 then [0xC0 + n / 0x40, 0x80 + n % 0x40]
  else if n < 0x10000 then
    [0xE0 + n / 0x1000, 0x80 + n / 0x40 % 0x40, 0x80 + n % 0x40]
  else
    [0xF0 + n / 0x40000, 0x80 + n / 0x1000 % 0x40, 0x80 + n / 0x40 % 0x40, 0x80 + n % 0x40]

/-- The standard base64 alphabet character for a 6-bit value. -/
def b64Char (n : Nat) : Char :=
  "ABCDEFGHIJKLMNOPQRSTUVWXYZabcdefghijklmnopqrstuvwxyz0123456789+/".data.getD n 'A'

/-- Standard base64 of a byte sequence (Node `toString ('base64')`). -/
def base64Chars : List Nat → List Char
  | [] => []
  | [a] => [b64Char (a / 4), b64Char (a % 4 * 16), '=', '=']
  | [a, b] => [b64Char (a / 4), b64Char (a % 4 * 16 + b / 16), b64Char (b % 16 * 4), '=']
  | a :: b :: c :: rest =>
    b64Char (a / 4) :: b64Char (a % 4 * 16 + b / 16) :: b64Char (b % 16 * 4 + c / 64) ::
      b64Char (c % 64) :: base64Chars rest

/-- JavaScript `padStart (n, fill)`. -/
def padStartChars (n : Nat) (fill : Char) (cs : List Char) : List Char :=
  List.replicate (n - cs.length) fill ++ cs

/-- The fingerprint generator `generateTransactionId` of src/lib/db.ts:
builds `userId:merchant:date:amount:rewards` with the merchant name
lowercased and trimmed, hashes it with the 32-bit rolling hash, and
returns the zero-padded hex of the absolute hash followed by a dash and
the first 20 base64 characters of the UTF-8 encoding of the data string. -/
def generateTransactionId (userId merchantName date : String)
    (amount rewards : JsNum) : String :=
  let data := userId.data ++ ':' :: trimChars (lowerChars merchantName.data) ++
    ':' :: date.data ++ ':' :: JsNum.render amount ++ ':' :: JsNum.render rewards
  let h := hashOfCodes (utf16Codes data)
  let hashHex := padStartChars 8 '0' (Nat.toDigits 16 h.natAbs)
  String.mk (hashHex ++ '-' :: (base64Chars ((data.map utf8Bytes).flatten)).take 20)

/-! ## Categorization (src/lib/places.ts and src/lib/db.ts lines 91-129) -/

/-- The fixed `PLACE_TYPE_TO_CATEGORY` table of src/lib/places.ts, in
source order. -/
def placeTypeToCategoryTable : List (String × String) :=
  [ ("restaurant", "Food & Dining"), ("cafe", "Food & Dining"),
    ("bakery", "Food & Dining"), ("bar", "Food & Dining"),
    ("meal_delivery", "Food & Dining"), ("meal_takeaway", "Food & Dining"),
    ("food", "Food & Dining"),
    ("store", "Shopping"), ("supermarket", "Shopping"),
    ("grocery_or_supermarket", "Shopping"), ("shopping_mall", "Shopping"),
    ("clothing_store", "Shopping"), ("department_store", "Shopping"),
    ("electronics_store", "Shopping"), ("home_goods_store", "Shopping"),
    ("jewelry_store", "Shopping"), ("shoe_store", "Shopping"),
    ("convenience_store", "Shopping"), ("liquor_store", "Shopping"),
    ("pet_store", "Shopping"), ("pharmacy", "Shopping"),
    ("movie_theater", "Entertainment"), ("bowling_alley", "Entertainment"),
    ("casino", "Entertainment"), ("night_club", "Entertainment"),
    ("amusement_park", "Entertainment"), ("aquarium", "Entertainment"),
    ("museum", "Entertainment"), ("tourist_attraction", "Entertainment"),
    ("zoo", "Entertainment"), ("stadium", "Entertainment"),
    ("gas_station", "Transportation"), ("parking", "Transportation"),
    ("car_repair", "Transportation"), ("car_dealer", "Transportation"),
    ("car_rental", "Transportation"), ("car_wash", "Transportation"),
    ("taxi_stand", "Transportation"), ("transit_station", "Transportation"),
    ("subway_station", "Transportation"), ("train_station", "Transportation"),
    ("bus_station", "Transportation"), ("airport", "Transportation"),
    ("lodging", "Travel"), ("hotel", "Travel"), ("travel_agency", "Travel"),
    ("campground", "Travel"), ("rv_park", "Travel"),
    ("electrician", "Utilities"), ("plumber", "Utilities"),
    ("roofing_contractor", "Utilities"), ("general_contractor", "Utilities"),
    ("doctor", "Healthcare"), ("dentist", "Healthcare"),
    ("hospital", "Healthcare"), ("physiotherapist", "Healthcare"),
    ("veterinary_care", "Healthcare"), ("health", "Healthcare"),
    ("medical", "Healthcare"),
    ("school", "Education"), ("university", "Education"),
    ("library", "Education"), ("book_store", "Education"),
    ("bank", "Business"), ("atm", "Business"), ("accounting", "Business"),
    ("insurance_agency", "Business"), ("lawyer", "Business"),
    ("real_estate_agency", "Business"), ("post_office", "Business"),
    ("courthouse", "Business"), ("embassy", "Business"),
    ("local_government_office", "Business"), ("police", "Business"),
    ("fire_station", "Business"),
    ("gym", "Entertainment"), ("spa", "Entertainment"),
    ("beauty_salon", "Shopping"), ("hair_care", "Shopping"),
    ("laundry", "Shopping"), ("dry_cleaning", "Shopping"),
    ("florist", "Shopping"), ("furniture_store", "Shopping"),
    ("hardware_store", "Shopping"), ("moving_company", "Utilities"),
    ("storage", "Utilities") ]

/-- Lookup of one place type in the fixed table. -/
def placeTypeToCategory (t : String) : Option String :=
  (placeTypeToCategoryTable.find? (fun p => p.1 == t)).map (fun p => p.2)

/-- The `COMMON_MERCHANT_MAPPINGS` table of src/lib/places.ts, in source
order (a JavaScript object with only non-index string keys iterates in
insertion order). -/
def commonMerchantMappings : List (String × String) :=
  [ ("amazon", "Shopping"), ("uber eats", "Food & Dining"),
    ("doordash", "Food & Dining"), ("grubhub", "Food & Dining"),
    ("postmates", "Food & Dining"), ("instacart", "Shopping"),
    ("netflix", "Entertainment"), ("spotify", "Entertainment"),
    ("hulu", "Entertainment"), ("disney", "Entertainment"),
    ("apple", "Shopping"), ("google", "Business"), ("microsoft", "Business"),
    ("shell", "Transportation"), ("bp", "Transportation"),
    ("chevron", "Transportation"), ("exxon", "Transportation"),
    ("mobil", "Transportation"), ("costco", "Shopping"),
    ("walmart", "Shopping"), ("target", "Shopping"),
    ("walgreens", "Shopping"), ("cvs", "Shopping"),
    ("starbucks", "Food & Dining"), ("mcdonald", "Food & Dining"),
    ("chipotle", "Food & Dining"), ("subway", "Food & Dining"),
    ("chick-fil-a", "Food & Dining"), ("uber", "Transportation"),
    ("lyft", "Transportation"), ("airbnb", "Travel"),
    ("marriott", "Travel"), ("hilton", "Travel"), ("delta", "Travel"),
    ("united", "Travel"), ("american airlines", "Travel"),
    ("southwest", "Travel") ]

/-- The heuristic `categorizeByCommonName` of src/lib/places.ts: the first
table keyword contained in the lowercased merchant name wins. -/
def categorizeByCommonName (merchantName : String) : Option String :=
  (commonMerchantMappings.find?
    (fun p => listContainsSub (lowerChars merchantName.data) p.1.data)).map
    (fun p => p.2)

/-- The external Places text-search call of `categorizeMerchant`, modelled
as an oracle returning the type tags of the first result (the network
call is an external collaborator; a failed call or empty result is
`none`, matching the `try`/`catch` that returns null).  The returned
types are mapped through the fixed table, first mapped type wins. -/
def categorizeMerchant (placeTypes : String → Option (List String))
    (merchantName : String) : Option String :=
  match placeTypes merchantName with
  | none => none
  | some types => types.findSome? placeTypeToCategory

/-- The `getMerchantCategory` of src/lib/places.ts: common-name mapping
first, then the Places search. -/
def getMerchantCategory (placeTypes : String → Option (List String))
    (merchantName : String) : Option String :=
  match categorizeByCommonName merchantName with
  | some c => some c
  | none => categorizeMerchant placeTypes merchantName

/-- Row of the `user_merchant_categories` table (the per-owner override). -/
structure OverrideRow where
  user_id : String
  merchant_name : String
  category : String
deriving DecidableEq

/-- Row of the global merchant-category cache, annotated with its
provenance tag. -/
structure GlobalCacheRow where
  merchant_name : String
  category : String
  source : String
deriving DecidableEq

/-- The two category tables. -/
structure CatDB where
  overrides : List OverrideRow
  globalCache : List GlobalCacheRow
deriving DecidableEq

/-- The `getUserMerchantCategory` of src/lib/db.ts: selects the category
of the row with this user id whose merchant name matches
case-insensitively (`LOWER (merchant_name) = LOWER ($2)`); `rows[0]` of
the unordered result is modelled as the first matching row, and
`... || null` maps an empty stored category to null. -/
def getUserMerchantCategory (db : CatDB) (userId merchantName : String) :
    Option String :=
  match db.overrides.find? (fun r => r.user_id == userId &&
      lowerChars r.merchant_name.data == lowerChars merchantName.data) with
  | some r => if r.category = "" then none else some r.category
  | none => none

/-- Modelled from the spec: `getGlobalMerchantCategory` is imported from
lib/db by every worker variant but its definition is not among the
provided sources.  Per the design document the global cache is "keyed
case-insensitively on merchant name" and a lookup returns the cached
category when present. -/
def getGlobalMerchantCategory (db : CatDB) (merchantName : String) :
    Option String :=
  match db.globalCache.find?
      (fun r => lowerChars r.merchant_name.data == lowerChars merchantName.data) with
  | some r => if r.category = "" then none else some r.category
  | none => none

/-- Modelled from the spec: `setGlobalMerchantCategory` is imported from
lib/db but not among the provided sources.  Per the design document it
writes a discovered mapping into the global cache (an upsert keyed
case-insensitively on merchant name) together with its provenance tag;
it never touches the per-owner override table. -/
def setGlobalMerchantCategory (db : CatDB) (merchantName category source : String) :
    CatDB :=
  if db.globalCache.any
      (fun r => lowerChars r.merchant_name.data == lowerChars merchantName.data) then
    { db with globalCache := db.globalCache.map (fun r =>
        if lowerChars r.merchant_name.data == lowerChars merchantName.data then
          { r with category := category, source := source }
        else r) }
  else
    { db with globalCache := db.globalCache ++ [⟨merchantName, category, source⟩] }

/-- The category-resolution block of `processJob`
(src/app/api/worker/route.ts lines 315-339): per-owner override, then
global cache, then common-name heuristic (cached globally as
`common_name`), then — when a Places API key is configured — the Places
search (cached globally as `google_places`). -/
def resolveCategory (db : CatDB) (userId merchantName : String)
    (placesApiKey : Bool) (placeTypes : String → Option (List String)) :
    Option String × CatDB :=
  match getUserMerchantCategory db userId merchantName with
  | some c => (some c, db)
  | none =>
    match getGlobalMerchantCategory db merchantName with
    | some c => (some c, db)
    | none =>
      match categorizeByCommonName merchantName with
      | some c => (some c, setGlobalMerchantCategory db merchantName c "common_name")
      | none =>
        if placesApiKey then
          match getMerchantCategory placeTypes merchantName with
          | some c => (some c, setGlobalMerchantCategory db merchantName c "google_places")
          | none => (none, db)
        else (none, db)

/-! ## Transaction store and insert loop (`processJob`,
src/app/api/worker/route.ts lines 299-364) -/

/-- The `Transaction` interface of the worker: a candidate produced by
extraction.  `bitcoin_rewards` is optional to model the source's
defensive `t.bitcoin_rewards || 0`. -/
structure Candidate where
  merchant_name : String
  transaction_date : String
  amount_spent : JsNum
  bitcoin_rewards : Option JsNum
deriving DecidableEq

/-- Row of the `transactions` table (src/db/schema.sql): the fingerprint
is the primary key. -/
structure TxRow where
  id : String
  user_id : String
  merchant_name : String
  transaction_date : String
  amount_spent : JsNum
  bitcoin_rewards : JsNum
  category : Option String
deriving DecidableEq

/-- The durable transactions table. -/
abbrev TxStore := List TxRow

/-- Models `INSERT INTO transactions ... ON CONFLICT (id) DO NOTHING`
(src/app/api/worker/route.ts lines 342-355): PostgreSQL completes the
statement *without error* in both cases; a conflicting primary key
leaves the table unchanged.  The error channel mirrors the source's
`catch` of error code 23505 — under `ON CONFLICT (id) DO NOTHING` a
duplicate id never raises that code, so the statement always returns
`Except.ok`. -/
def insertTxOnConflictDoNothing (st : TxStore) (row : TxRow) :
    TxStore × Except String Unit :=
  if st.any (fun r => r.id == row.id) then (st, Except.ok ())
  else (st ++ [row], Except.ok ())

/-- The candidate loop of `processJob` (lines 303-364): normalize the
date (skip on failure), fingerprint, resolve the category, insert keyed
by the fingerprint, and count `added`/`duplicates` exactly as the source
does — `added` is incremented after a query that completed without
error, and `duplicates` only in the `catch` branch for error code
23505; any other error aborts the job. -/
def processCandidates (userId : String) (placesApiKey : Bool)
    (placeTypes : String → Option (List String)) (ts : List Candidate)
    (db : CatDB) (st : TxStore) (added duplicates : Nat) :
    Except String (TxStore × CatDB × Nat × Nat) :=
  match ts with
  | [] => Except.ok (st, db, added, duplicates)
  | t :: rest =>
    match parseTransactionDate t.transaction_date with
    | none => processCandidates userId placesApiKey placeTypes rest db st added duplicates
    | some formattedDate =>
      let rewards := t.bitcoin_rewards.getD ⟨0, 0⟩
      let txId := generateTransactionId userId t.merchant_name formattedDate
        t.amount_spent rewards
      let rc := resolveCategory db userId t.merchant_name placesApiKey placeTypes
      let ins := insertTxOnConflictDoNothing st
        ⟨txId, userId, t.merchant_name, formattedDate, t.amount_spent, rewards, rc.1⟩
      match ins.2 with
      | Except.ok _ =>
        processCandidates userId placesApiKey placeTypes rest rc.2 ins.1
          (added + 1) duplicates
      | Except.error e =>
        if e = "23505" then
          processCandidates userId placesApiKey placeTypes rest rc.2 st
            added (duplicates + 1)
        else Except.error e

/-- Observable summary of an insert-loop run: number of stored rows,
`added` count, `duplicates` count (an aborted job is marked by the
sentinel). -/
def insertLoopSummary (r : Except String (TxStore × CatDB × Nat × Nat)) :
    Nat × Nat × Nat :=
  match r with
  | Except.ok (st, _, a, d) => (st.length, a, d)
  | Except.error _ => (1000000, 1000000, 1000000)

/-- A replayed job: the same candidate list processed again, starting
from the store and category tables the first run left behind (fresh
`added`/`duplicates` counters, as each job keeps its own). -/
def replayJob (userId : String) (placesApiKey : Bool)
    (placeTypes : String → Option (List String)) (ts : List Candidate) :
    Except String (TxStore × CatDB × Nat × Nat) :=
  match processCandidates userId placesApiKey placeTypes ts ⟨[], []⟩ [] 0 0 with
  | Except.ok (st1, db1, _, _) => processCandidates userId placesApiKey placeTypes ts db1 st1 0 0
  | Except.error e => Except.error e

/-! ## Job store (the `jobs` table and the worker SQL of the
bounded-concurrency worker, src/unnamed/part_018 lines 519-581) -/

/-- Status column of a job.  The worker only ever produces the four
documented states. -/
inductive JobStatus where
  | pending
  | processing
  | completed
  | failed
deriving DecidableEq

/-- Row of the `jobs` table, with the columns the worker logic reads or
writes (timestamps in seconds; `retryCount` models
`COALESCE (retry_count, 0)`, so a NULL column is 0; `result`/`error`
payloads do not influence any claimed property and are omitted). -/
structure Job where
  id : Nat
  status : JobStatus
  createdAt : Nat
  startedAt : Option Nat
  retryCount : Nat
deriving DecidableEq

/-- The durable jobs table. -/
abbrev JobStore := List Job

/-- Insertion into a list sorted by `created_at` (stable: equal keys keep
their relative order, a deterministic refinement of SQL's unspecified
tie order). -/
def insertSorted (j : Job) : JobStore → JobStore
  | [] => [j]
  | k :: rest =>
    if j.createdAt < k.createdAt then j :: k :: rest else k :: insertSorted j rest

/-- Stable sort by `created_at` ascending (`ORDER BY created_at ASC`). -/
def sortByCreated (l : JobStore) : JobStore :=
  l.foldr insertSorted []

/-- `SELECT id FROM jobs WHERE status = 'pending' ORDER BY created_at ASC
LIMIT n`, returning the selected rows. -/
def selectOldestPending (n : Nat) (s : JobStore) : List Job :=
  (sortByCreated (s.filter (fun j => j.status == JobStatus.pending))).take n

/-- The row update performed by the claim statement:
`SET status = 'processing', started_at = NOW()`. -/
def claimUpd (now : Nat) (j : Job) : Job :=
  { j with status := JobStatus.processing, startedAt := some now }

/-- The atomic claim statement of the worker (src/unnamed/part_018 lines
569-581): one `UPDATE ... WHERE id IN (SELECT ... LIMIT n) RETURNING ...`
transitions up to `n` oldest pending jobs to processing and returns the
updated rows. -/
def claimPending (n now : Nat) (s : JobStore) : JobStore × List Job :=
  let sel := selectOldestPending n s
  let ids := sel.map (fun j => j.id)
  (s.map (fun j => if ids.contains j.id then claimUpd now j else j),
    sel.map (claimUpd now))

/-- The stuck-job timeout constant `JOB_TIMEOUT_MINUTES` of the worker. -/
def JOB_TIMEOUT_MINUTES : Nat := 5

/-- `status = 'processing' AND started_at < NOW() - INTERVAL '5 minutes'`
(a NULL `started_at` makes the comparison unknown, hence not selected). -/
def isStuck (now : Nat) (j : Job) : Bool :=
  j.status == JobStatus.processing &&
    (match j.startedAt with
     | some t => t + JOB_TIMEOUT_MINUTES * 60 < now
     | none => false)

/-- The stuck-job recovery statement (src/unnamed/part_018 lines 540-547):
every job stuck in processing longer than the timeout is set back to
pending. -/
def recoverStuck (now : Nat) (s : JobStore) : JobStore :=
  s.map (fun j => if isStuck now j then { j with status := JobStatus.pending } else j)

/-- `status = 'failed' AND COALESCE (retry_count, 0) < 2`: eligibility for
the automatic requeue. -/
def retryEligible (j : Job) : Bool :=
  j.status == JobStatus.failed && j.retryCount < 2

/-- The failed-job requeue statement (src/unnamed/part_018 lines 525-538):
up to 2 oldest eligible failed jobs are set back to pending with
`retry_count = COALESCE (retry_count, 0) + 1`. -/
def requeueFailed (s : JobStore) : JobStore :=
  let sel := (sortByCreated (s.filter retryEligible)).take 2
  let ids := sel.map (fun j => j.id)
  s.map (fun j =>
    if ids.contains j.id then
      { j with status := JobStatus.pending, retryCount := j.retryCount + 1 }
    else j)

/-- Enqueue (the submission collaborator's single insert): a fresh row in
status pending with `retry_count` 0. -/
def enqueueJob (id t : Nat) (s : JobStore) : JobStore :=
  s ++ [⟨id, JobStatus.pending, t, none, 0⟩]

/-- `UPDATE jobs SET status = 'processing', started_at = NOW() WHERE id =
$1` (the redundant update at the top of `processJob`). -/
def markProcessingJob (id now : Nat) (s : JobStore) : JobStore :=
  s.map (fun j => if j.id == id then claimUpd now j else j)

/-- The terminal completion update of `processJob`. -/
def completeJob (id : Nat) (s : JobStore) : JobStore :=
  s.map (fun j => if j.id == id then { j with status := JobStatus.completed } else j)

/-- The terminal failure update of `processJob`. -/
def failJob (id : Nat) (s : JobStore) : JobStore :=
  s.map (fun j => if j.id == id then { j with status := JobStatus.failed } else j)

/-- One atomic SQL statement against the jobs table, as issued by the
worker and its collaborators.  Enqueue carries the primary-key
constraint: the new id is fresh. -/
inductive WorkerStep : JobStore → JobStore → Prop where
  | enqueue {s : JobStore} (id t : Nat) (hfresh : ∀ j ∈ s, j.id ≠ id) :
      WorkerStep s (enqueueJob id t s)
  | requeue {s : JobStore} : WorkerStep s (requeueFailed s)
  | recover {s : JobStore} (now : Nat) : WorkerStep s (recoverStuck now s)
  | claim {s : JobStore} (n now : Nat) : WorkerStep s (claimPending n now s).1
  | markProcessing {s : JobStore} (id now : Nat) :
      WorkerStep s (markProcessingJob id now s)
  | complete {s : JobStore} (id : Nat) : WorkerStep s (completeJob id s)
  | fail {s : JobStore} (id : Nat) : WorkerStep s (failJob id s)

/-- Stores reachable from the empty table by the statements above. -/
inductive ReachableStore : JobStore → Prop where
  | init : ReachableStore []
  | step {s s' : JobStore} : ReachableStore s → WorkerStep s s' → ReachableStore s'

/-! ## Extraction-response parsing (`extractTransactionsFromFrames`,
src/app/api/worker/route.ts lines 112-202)

`JSON.parse` is a runtime facility of the platform; it is modelled by an
executable parser for the JSON grammar (strings with escapes, numbers
kept as lexemes — their numeric value plays no role in any claim —
arrays, objects, literals), strict about trailing input as the runtime
is. -/

/-- Parsed JSON values. -/
inductive Json where
  | null
  | bool (b : Bool)
  | num (lexeme : String)
  | str (s : String)
  | arr (elems : List Json)
  | obj (fields : List (String × Json))

/-- JSON insignificant whitespace. -/
def isJsonWs (c : Char) : Bool :=
  c = ' ' || c = '\t' || c = '\n' || c = '\r'

/-- Skip insignificant whitespace. -/
def skipJsonWs (cs : List Char) : List Char :=
  cs.dropWhile isJsonWs

/-- Value of a hexadecimal digit. -/
def hexVal (c : Char) : Option Nat :=
  if '0' ≤ c ∧ c ≤ '9' then some (c.toNat - 48)
  else if 'a' ≤ c ∧ c ≤ 'f' then some (c.toNat - 87)
  else if 'A' ≤ c ∧ c ≤ 'F' then some (c.toNat - 55)
  else none

/-- JSON string body after the opening quote: content and the remainder
after the closing quote. -/
def parseJsonString (fuel : Nat) (acc : List Char) (cs : List Char) :
    Option (String × List Char) :=
  match fuel with
  | 0 => none
  | fuel + 1 =>
    match cs with
    | [] => none
    | c :: rest =>
      if c = '"' then some (String.mk acc.reverse, rest)
      else if c = '\\' then
        match rest with
        | [] => none
        | e :: rest2 =>
          if e = '"' then parseJsonString fuel ('"' :: acc) rest2
          else if e = '\\' then parseJsonString fuel ('\\' :: acc) rest2
          else if e = '/' then parseJsonString fuel ('/' :: acc) rest2
          else if e = 'b' then parseJsonString fuel (Char.ofNat 8 :: acc) rest2
          else if e = 'f' then parseJsonString fuel (Char.ofNat 12 :: acc) rest2
          else if e = 'n' then parseJsonString fuel ('\n' :: acc) rest2
          else if e = 'r' then parseJsonString fuel ('\r' :: acc) rest2
          else if e = 't' then parseJsonString fuel ('\t' :: acc) rest2
          else if e = 'u' then
            match rest2 with
            | h1 :: h2 :: h3 :: h4 :: rest3 =>
              match hexVal h1, hexVal h2, hexVal h3, hexVal h4 with
              | some a, some b, some c2, some d =>
                parseJsonString fuel
                  (Char.ofNat (a * 4096 + b * 256 + c2 * 16 + d) :: acc) rest3
              | _, _, _, _ => none
            | _ => none
          else none
      else if c.toNat < 0x20 then none
      else parseJsonString fuel (c :: acc) rest

/-- JSON number lexeme: `-?(0|[1-9][0-9]*)(\.[0-9]+)?([eE][+-]?[0-9]+)?`. -/
def parseJsonNumber (cs : List Char) : Option (List Char × List Char) :=
  let p1 : List Char × List Char :=
    match cs with
    | '-' :: t => (['-'], t)
    | _ => ([], cs)
  let ds := p1.2.takeWhile Char.isDigit
  let r2 := p1.2.dropWhile Char.isDigit
  if ds.length = 0 then none
  else if 1 < ds.length ∧ ds.headD 'x' = '0' then none
  else
    let fr : Option (List Char × List Char) :=
      match r2 with
      | '.' :: t =>
        let fd := t.takeWhile Char.isDigit
        if fd.length = 0 then none else some ('.' :: fd, t.dropWhile Char.isDigit)
      | _ => some ([], r2)
    match fr with
    | none => none
    | some (fchars, r3) =>
      let ex : Option (List Char × List Char) :=
        match r3 with
        | e :: t =>
          if e = 'e' ∨ e = 'E' then
            let p2 : List Char × List Char :=
              match t with
              | '+' :: t2 => (['+'], t2)
              | '-' :: t2 => (['-'], t2)
              | _ => ([], t)
            let ed := p2.2.takeWhile Char.isDigit
            if ed.length = 0 then none
            else some (e :: p2.1 ++ ed, p2.2.dropWhile Char.isDigit)
          else some ([], r3)
        | [] => some ([], [])
      match ex with
      | none => none
      | some (echars, r4) => some (p1.1 ++ ds ++ fchars ++ echars, r4)

mutual

/-- One JSON value and the remainder. -/
def parseJsonVal (fuel : Nat) (cs : List Char) : Option (Json × List Char) :=
  match fuel with
  | 0 => none
  | fuel + 1 =>
    match skipJsonWs cs with
    | 'n' :: 'u' :: 'l' :: 'l' :: r => some (Json.null, r)
    | 't' :: 'r' :: 'u' :: 'e' :: r => some (Json.bool true, r)
    | 'f' :: 'a' :: 'l' :: 's' :: 'e' :: r => some (Json.bool false, r)
    | '"' :: r => (parseJsonString (r.length + 1) [] r).map (fun p => (Json.str p.1, p.2))
    | '[' :: r =>
      (match skipJsonWs r with
       | ']' :: r2 => some (Json.arr [], r2)
       | _ => parseJsonItems fuel r [])
    | '{' :: r =>
      (match skipJsonWs r with
       | '}' :: r2 => some (Json.obj [], r2)
       | _ => parseJsonFields fuel r [])
    | r => (parseJsonNumber r).map (fun p => (Json.num (String.mk p.1), p.2))

/-- Array items after the opening bracket (nonempty case). -/
def parseJsonItems (fuel : Nat) (cs : List Char) (acc : List Json) :
    Option (Json × List Char) :=
  match fuel with
  | 0 => none
  | fuel + 1 =>
    match parseJsonVal fuel cs with
    | none => none
    | some (v, r) =>
      match skipJsonWs r with
      | ',' :: r2 => parseJsonItems fuel r2 (v :: acc)
      | ']' :: r2 => some (Json.arr (v :: acc).reverse, r2)
      | _ => none

/-- Object members after the opening brace (nonempty case). -/
def parseJsonFields (fuel : Nat) (cs : List Char) (acc : List (String × Json)) :
    Option (Json × List Char) :=
  match fuel with
  | 0 => none
  | fuel + 1 =>
    match skipJsonWs cs with
    | '"' :: r =>
      (match parseJsonString (r.length + 1) [] r with
       | none => none
       | some (k, r2) =>
         match skipJsonWs r2 with
         | ':' :: r3 =>
           (match parseJsonVal fuel r3 with
            | none => none
            | some (v, r4) =>
              match skipJsonWs r4 with
              | ',' :: r5 => parseJsonFields fuel r5 ((k, v) :: acc)
              | '}' :: r5 => some (Json.obj ((k, v) :: acc).reverse, r5)
              | _ => none)
         | _ => none)
    | _ => none

end

/-- Model of `JSON.parse`: a full-string parse with generous fuel (the
recursion consumes at least one character per level and per item, so the
fuel bound is never the reason a well-formed input fails). -/
def jsonParse (cs : List Char) : Option Json :=
  match parseJsonVal (2 * cs.length + 8) cs with
  | some (v, rest) => if skipJsonWs rest = [] then some v else none
  | none => none

/-- `JSON.parse (jsonStr) as Transaction[]`: the extracted span starts at
`[`, so a successful parse is an array. -/
def jsonParseArr (cs : List Char) : Option (List Json) :=
  match jsonParse cs with
  | some (Json.arr l) => some l
  | _ => none

/-- Scanner state of the truncation-repair pass (`depth`,
`lastCompleteIndex`, `inString`, `escaped` of lines 153-156). -/
structure ScanSt where
  depth : Int
  lastComplete : Int
  inString : Bool
  escaped : Bool
deriving DecidableEq

/-- Initial scanner state. -/
def scanInit : ScanSt := ⟨0, -1, false, false⟩

/-- One character of the repair scan (lines 158-187): escape consumption,
quote toggling, bracket depth, and recording the index of a `}` that
closes a top-level array element. -/
def scanChar (i : Nat) (st : ScanSt) (c : Char) : ScanSt :=
  if st.escaped then { st with escaped := false }
  else if c = '\\' ∧ st.inString then { st with escaped := true }
  else if c = '"' then { st with inString := ¬ st.inString }
  else if st.inString then st
  else if c = '[' ∨ c = '{' then { st with depth := st.depth + 1 }
  else if c = ']' ∨ c = '}' then
    if st.depth - 1 = 1 ∧ c = '}' then
      { st with depth := st.depth - 1, lastComplete := Int.ofNat i }
    else { st with depth := st.depth - 1 }
  else st

/-- Run the scan from index `i`. -/
def scanFrom (i : Nat) (st : ScanSt) : List Char → ScanSt
  | [] => st
  | c :: rest => scanFrom (i + 1) (scanChar i st c) rest

/-- `lastCompleteIndex` after scanning the whole string. -/
def lastCompleteIndex (cs : List Char) : Int :=
  (scanFrom 0 scanInit cs).lastComplete

/-- `replace (/^```(?:json)?\s*/i, '')`: strip an opening code fence. -/
def stripOpenFence (cs : List Char) : List Char :=
  match cs with
  | '`' :: '`' :: '`' :: rest =>
    if lowerChars (rest.take 4) = "json".data then (rest.drop 4).dropWhile isJsSpace
    else rest.dropWhile isJsSpace
  | _ => cs

/-- `replace (/```\s*$/, '')`: strip a closing code fence and the
whitespace after it; without a fence the string is unchanged. -/
def stripCloseFence (cs : List Char) : List Char :=
  match cs.reverse.dropWhile isJsSpace with
  | '`' :: '`' :: '`' :: rest => rest.reverse
  | _ => cs

/-- `cleanedContent.match (/\[[\s\S]*\]/)`: the span from the first `[`
that has a `]` after it, to the last `]` of the string (leftmost match,
greedy body). -/
def jsonSpan (cs : List Char) : Option (List Char) :=
  match cs.reverse.findIdx? (fun c => c == ']') with
  | none => none
  | some k =>
    let j := cs.length - 1 - k
    match (cs.take j).findIdx? (fun c => c == '[') with
    | none => none
    | some i => some ((cs.take (j + 1)).drop i)

/-- The no-transaction check of lines 133-137: the lowercased original
response contains "no transaction", "empty" or "[]". -/
def indicatesNoTransactions (s : String) : Bool :=
  listContainsSub (lowerChars s.data) "no transaction".data ||
  listContainsSub (lowerChars s.data) "empty".data ||
  listContainsSub (lowerChars s.data) "[]".data

/-- The response-parsing tail of `extractTransactionsFromFrames` (lines
118-202): strip fences, extract the `[...]` span (throwing, if absent,
unless the text plainly indicates no transactions), parse it, and on
parse failure run the truncation-repair scan, re-parse the truncated
span, or throw. -/
def extractParse (responseContent : String) : Except String (List Json) :=
  match jsonSpan (stripCloseFence (stripOpenFence responseContent.data)) with
  | none =>
    if indicatesNoTransactions responseContent then Except.ok []
    else Except.error "Could not parse transactions from response"
  | some jsonStr =>
    match jsonParseArr jsonStr with
    | some arr => Except.ok arr
    | none =>
      if lastCompleteIndex jsonStr > 0 then
        match jsonParseArr (jsonStr.take ((lastCompleteIndex jsonStr).toNat + 1) ++ [']']) with
        | some arr => Except.ok arr
        | none => Except.error "Invalid JSON in response"
      else Except.error "Invalid JSON in response"

/-- Digits to a natural number. -/
def digitsToNat (ds : List Char) : Nat :=
  ds.foldl (fun a c => a * 10 + (c.toNat - 48)) 0

/-- Exact decimal value of a JSON number lexeme. -/
def numLexemeToJsNum (lex : List Char) : Option JsNum :=
  let p1 : Bool × List Char :=
    match lex with
    | '-' :: t => (true, t)
    | _ => (false, lex)
  let ds := p1.2.takeWhile Char.isDigit
  let r2 := p1.2.dropWhile Char.isDigit
  if ds.length = 0 then none
  else
    let fr : List Char × List Char :=
      match r2 with
      | '.' :: t => (t.takeWhile Char.isDigit, t.dropWhile Char.isDigit)
      | _ => ([], r2)
    let ex : Option Int :=
      match fr.2 with
      | [] => some 0
      | e :: t =>
        if e = 'e' ∨ e = 'E' then
          match t with
          | '+' :: t2 =>
            if t2 ≠ [] ∧ t2.all Char.isDigit then some (Int.ofNat (digitsToNat t2)) else none
          | '-' :: t2 =>
            if t2 ≠ [] ∧ t2.all Char.isDigit then some (- Int.ofNat (digitsToNat t2)) else none
          | t2 =>
            if t2 ≠ [] ∧ t2.all Char.isDigit then some (Int.ofNat (digitsToNat t2)) else none
        else none
    match ex with
    | none => none
    | some e =>
      let m : Int := (if p1.1 then -1 else 1) * Int.ofNat (digitsToNat (ds ++ fr.1))
      let sc : Int := Int.ofNat fr.1.length - e
      if 0 ≤ sc then some ⟨m, sc.toNat⟩ else some ⟨m * 10 ^ (- sc).toNat, 0⟩

/-- Reading one extracted object as a `Transaction` of the declared
interface.  The source casts the parsed array with `as Transaction[]`
without runtime validation; the decoder reads the declared fields of a
well-formed object (the only shape the claims exercise), with
`bitcoin_rewards` optional. -/
def decodeTx (j : Json) : Option Candidate :=
  match j with
  | Json.obj fields =>
    (match (fields.find? (fun p => p.1 == "merchant_name")).map (fun p => p.2),
        (fields.find? (fun p => p.1 == "transaction_date")).map (fun p => p.2),
        (fields.find? (fun p => p.1 == "amount_spent")).map (fun p => p.2) with
     | some (Json.str mn), some (Json.str td), some (Json.num am) =>
       (match numLexemeToJsNum am.data with
        | none => none
        | some amt =>
          match (fields.find? (fun p => p.1 == "bitcoin_rewards")).map (fun p => p.2) with
          | some (Json.num r) =>
            (numLexemeToJsNum r.data).map (fun rw => ⟨mn, td, amt, some rw⟩)
          | _ => some ⟨mn, td, amt, none⟩)
     | _, _, _ => none)
  | _ => none

/-- Decode a parsed array of extracted objects. -/
def decodeTxList (js : List Json) : List Candidate :=
  js.filterMap decodeTx

/-- Terminal state of one job after `processJob`. -/
inductive JobOutcome where
  | completed (added duplicates : Nat)
  | failedJob (err : String)
deriving DecidableEq

/-- The tail of `processJob` after extraction (lines 286-379): an
extraction error is caught and the job is finalized as failed with the
message; otherwise the candidate loop runs and the job completes with
its added/duplicates summary.  (The loop's own error path is
unreachable: the conflict-tolerant insert never throws.) -/
def finishJob (userId : String) (placesApiKey : Bool)
    (placeTypes : String → Option (List String))
    (extraction : Except String (List Candidate)) (db : CatDB) (st : TxStore) :
    JobOutcome × TxStore × CatDB :=
  match extraction with
  | Except.error e => (JobOutcome.failedJob e, st, db)
  | Except.ok ts =>
    match processCandidates userId placesApiKey placeTypes ts db st 0 0 with
    | Except.ok (st2, db2, a, d) => (JobOutcome.completed a d, st2, db2)
    | Except.error e => (JobOutcome.failedJob e, st, db)

/-- One job run on a raw extraction response: parse the response, decode
the candidates, and finalize. -/
def workerJobRun (userId : String) (placesApiKey : Bool)
    (placeTypes : String → Option (List String)) (response : String)
    (db : CatDB) (st : TxStore) : JobOutcome × TxStore × CatDB :=
  finishJob userId placesApiKey placeTypes
    ((extractParse response).map decodeTxList) db st

/-! # Theorems and supporting lemmas -/

/-! ### Lemmas about the matchers -/

theorem takeWhile_append_all (p : Char → Bool) (a r : List Char)
    (ha : ∀ c ∈ a, p c = true) (hr : ∀ c, r.head? = some c → p c = false) :
    (a ++ r).takeWhile p = a := by
  induction a with
  | nil =>
    cases r with
    | nil => rfl
    | cons h t =>
      simp only [List.nil_append, List.takeWhile]
      rw [hr h rfl]
  | cons h t ih =>
    simp only [List.cons_append, List.takeWhile]
    rw [ha h (by simp)]
    simp only [List.cons.injEq, true_and]
    exact ih (fun c hc => ha c (by simp [hc]))

theorem dropWhile_append_all (p : Char → Bool) (a r : List Char)
    (ha : ∀ c ∈ a, p c = true) (hr : ∀ c, r.head? = some c → p c = false) :
    (a ++ r).dropWhile p = r := by
  induction a with
  | nil =>
    cases r with
    | nil => rfl
    | cons h t =>
      simp only [List.nil_append, List.dropWhile]
      rw [hr h rfl]
  | cons h t ih =>
    simp only [List.cons_append, List.dropWhile]
    rw [ha h (by simp)]
    exact ih (fun c hc => ha c (by simp [hc]))

theorem char_eq_iff_toNat (c d : Char) : c = d ↔ c.toNat = d.toNat := by
  rw [Char.ext_iff]
  simp [Char.toNat, UInt32.ext_iff]

theorem isDigit_iff_toNat (c : Char) : c.isDigit = true ↔ 48 ≤ c.toNat ∧ c.toNat ≤ 57 := by
  simp only [Char.isDigit, Bool.and_eq_true, decide_eq_true_eq, Char.le_def, UInt32.le_def]
  exact ⟨fun h => ⟨h.1, h.2⟩, fun h => ⟨h.1, h.2⟩⟩

theorem isAsciiAlpha_iff_toNat (c : Char) : isAsciiAlpha c = true ↔
    (65 ≤ c.toNat ∧ c.toNat ≤ 90) ∨ (97 ≤ c.toNat ∧ c.toNat ≤ 122) := by
  simp only [isAsciiAlpha, Bool.or_eq_true, Bool.and_eq_true, decide_eq_true_eq,
    Char.le_def, UInt32.le_def]
  constructor
  · rintro (⟨h1, h2⟩ | ⟨h1, h2⟩)
    · exact Or.inl ⟨h1, h2⟩
    · exact Or.inr ⟨h1, h2⟩
  · rintro (⟨h1, h2⟩ | ⟨h1, h2⟩)
    · exact Or.inl ⟨h1, h2⟩
    · exact Or.inr ⟨h1, h2⟩

theorem isJsSpace_iff_toNat (c : Char) : isJsSpace c = true ↔
    (c.toNat = 0x20 ∨ c.toNat = 0x09 ∨ c.toNat = 0x0a ∨ c.toNat = 0x0d ∨
     c.toNat = 0x0b ∨ c.toNat = 0x0c ∨ c.toNat = 0xA0 ∨ c.toNat = 0x1680 ∨
     (0x2000 ≤ c.toNat ∧ c.toNat ≤ 0x200A) ∨ c.toNat = 0x2028 ∨ c.toNat = 0x2029 ∨
     c.toNat = 0x202F ∨ c.toNat = 0x205F ∨ c.toNat = 0x3000 ∨ c.toNat = 0xFEFF) := by
  simp only [isJsSpace, Bool.or_eq_true, Bool.and_eq_true, decide_eq_true_eq]
  tauto

theorem digit_not_space (c : Char) (h : c.isDigit = true) : isJsSpace c = false := by
  have hd := (isDigit_iff_toNat c).1 h
  rw [Bool.eq_false_iff]
  intro hs
  have := (isJsSpace_iff_toNat c).1 hs
  omega

theorem alpha_not_digit (c : Char) (h : isAsciiAlpha c = true) : c.isDigit = false := by
  have ha := (isAsciiAlpha_iff_toNat c).1 h
  rw [Bool.eq_false_iff]
  intro hd
  have := (isDigit_iff_toNat c).1 hd
  omega

theorem alpha_not_space (c : Char) (h : isAsciiAlpha c = true) : isJsSpace c = false := by
  have ha := (isAsciiAlpha_iff_toNat c).1 h
  rw [Bool.eq_false_iff]
  intro hs
  have := (isJsSpace_iff_toNat c).1 hs
  omega

theorem takeWhile_all (p : Char → Bool) (a : List Char)
    (ha : ∀ c ∈ a, p c = true) : a.takeWhile p = a := by
  have := takeWhile_append_all p a [] ha (fun c hc => by exact absurd hc (by simp))
  simpa using this

theorem dropWhile_all (p : Char → Bool) (a : List Char)
    (ha : ∀ c ∈ a, p c = true) : a.dropWhile p = [] := by
  have := dropWhile_append_all p a [] ha (fun c hc => by exact absurd hc (by simp))
  simpa using this

theorem head_cons_not_digit (ch : Char) (rest : List Char) (hch : ch.isDigit = false) :
    ∀ c, (ch :: rest).head? = some c → c.isDigit = false := by
  intro c hc
  simp only [List.head?_cons, Option.some.injEq] at hc
  subst hc
  exact hch

theorem matchNumSlash_concat (m d y : List Char)
    (hm : ∀ c ∈ m, c.isDigit = true) (hm1 : 1 ≤ m.length) (hm2 : m.length ≤ 2)
    (hd : ∀ c ∈ d, c.isDigit = true) (hd1 : 1 ≤ d.length) (hd2 : d.length ≤ 2)
    (hy : ∀ c ∈ y, c.isDigit = true) (hy4 : y.length = 4) :
    matchNumSlash (m ++ '/' :: (d ++ '/' :: y)) = some (m, d, y) := by
  unfold matchNumSlash
  rw [takeWhile_append_all _ m _ hm (head_cons_not_digit _ _ (by decide)),
    dropWhile_append_all _ m _ hm (head_cons_not_digit _ _ (by decide)),
    if_pos ⟨hm1, hm2⟩]
  try simp only
  rw [takeWhile_append_all _ d _ hd (head_cons_not_digit _ _ (by decide)),
    dropWhile_append_all _ d _ hd (head_cons_not_digit _ _ (by decide)),
    if_pos ⟨hd1, hd2⟩]
  try simp only
  rw [takeWhile_all _ y hy, dropWhile_all _ y hy, if_pos ⟨hy4, rfl⟩]

theorem head_cons_false (p : Char → Bool) (ch : Char) (rest : List Char)
    (hch : p ch = false) : ∀ c, (ch :: rest).head? = some c → p c = false := by
  intro c hc
  simp only [List.head?_cons, Option.some.injEq] at hc
  subst hc
  exact hch

theorem head_append_digit_not_space (d r : List Char) (hd1 : 1 ≤ d.length)
    (hall : ∀ c ∈ d, c.isDigit = true) :
    ∀ c, (d ++ r).head? = some c → isJsSpace c = false := by
  cases d with
  | nil => simp at hd1
  | cons a t =>
    intro c hc
    simp only [List.cons_append, List.head?_cons, Option.some.injEq] at hc
    subst hc
    exact digit_not_space a (hall a (by simp))

theorem head_digits_not_space (d : List Char) (hd1 : 1 ≤ d.length)
    (hall : ∀ c ∈ d, c.isDigit = true) :
    ∀ c, d.head? = some c → isJsSpace c = false := by
  cases d with
  | nil => simp at hd1
  | cons a t =>
    intro c hc
    simp only [List.head?_cons, Option.some.injEq] at hc
    subst hc
    exact digit_not_space a (hall a (by simp))

theorem takeWhile_nil_of_head (p : Char → Bool) (a : Char) (rest : List Char)
    (h : p a = false) : ((a :: rest).takeWhile p) = [] := by
  simp [List.takeWhile, h]

theorem matchNumDash_concat (m d y : List Char)
    (hm : ∀ c ∈ m, c.isDigit = true) (hm1 : 1 ≤ m.length) (hm2 : m.length ≤ 2)
    (hd : ∀ c ∈ d, c.isDigit = true) (hd1 : 1 ≤ d.length) (hd2 : d.length ≤ 2)
    (hy : ∀ c ∈ y, c.isDigit = true) (hy4 : y.length = 4) :
    matchNumDash (m ++ '-' :: (d ++ '-' :: y)) = some (m, d, y) := by
  unfold matchNumDash
  rw [takeWhile_append_all _ m _ hm (head_cons_false _ _ _ (by decide)),
    dropWhile_append_all _ m _ hm (head_cons_false _ _ _ (by decide)),
    if_pos ⟨hm1, hm2⟩]
  try simp only
  rw [takeWhile_append_all _ d _ hd (head_cons_false _ _ _ (by decide)),
    dropWhile_append_all _ d _ hd (head_cons_false _ _ _ (by decide)),
    if_pos ⟨hd1, hd2⟩]
  try simp only
  rw [takeWhile_all _ y hy, dropWhile_all _ y hy, if_pos ⟨hy4, rfl⟩]

theorem matchIsoDash_concat (y m d : List Char)
    (hy : ∀ c ∈ y, c.isDigit = true) (hy4 : y.length = 4)
    (hm : ∀ c ∈ m, c.isDigit = true) (hm1 : 1 ≤ m.length) (hm2 : m.length ≤ 2)
    (hd : ∀ c ∈ d, c.isDigit = true) (hd1 : 1 ≤ d.length) (hd2 : d.length ≤ 2) :
    matchIsoDash (y ++ '-' :: (m ++ '-' :: d)) = some (y, m, d) := by
  unfold matchIsoDash
  rw [takeWhile_append_all _ y _ hy (head_cons_false _ _ _ (by decide)),
    dropWhile_append_all _ y _ hy (head_cons_false _ _ _ (by decide)),
    if_pos hy4]
  try simp only
  rw [takeWhile_append_all _ m _ hm (head_cons_false _ _ _ (by decide)),
    dropWhile_append_all _ m _ hm (head_cons_false _ _ _ (by decide)),
    if_pos ⟨hm1, hm2⟩]
  try simp only
  rw [takeWhile_all _ d hd, dropWhile_all _ d hd, if_pos ⟨hd1, hd2, rfl⟩]

theorem matchNumSlash_dashSep_none (m rest : List Char)
    (hm : ∀ c ∈ m, c.isDigit = true) (hcond : 1 ≤ m.length ∧ m.length ≤ 2) :
    matchNumSlash (m ++ '-' :: rest) = none := by
  unfold matchNumSlash
  rw [takeWhile_append_all _ m _ hm (head_cons_false _ _ _ (by decide)),
    dropWhile_append_all _ m _ hm (head_cons_false _ _ _ (by decide)),
    if_pos hcond]
  simp

theorem matchNumSlash_len4_none (y rest : List Char)
    (hy : ∀ c ∈ y, c.isDigit = true) (hy4 : y.length = 4) :
    matchNumSlash (y ++ '-' :: rest) = none := by
  unfold matchNumSlash
  rw [takeWhile_append_all _ y _ hy (head_cons_false _ _ _ (by decide)),
    if_neg (by omega)]

theorem matchNumDash_len4_none (y rest : List Char)
    (hy : ∀ c ∈ y, c.isDigit = true) (hy4 : y.length = 4) :
    matchNumDash (y ++ '-' :: rest) = none := by
  unfold matchNumDash
  rw [takeWhile_append_all _ y _ hy (head_cons_false _ _ _ (by decide)),
    if_neg (by omega)]

theorem matchNumSlash_alpha_none (a : Char) (rest : List Char)
    (h : isAsciiAlpha a = true) : matchNumSlash (a :: rest) = none := by
  unfold matchNumSlash
  rw [takeWhile_nil_of_head _ _ _ (alpha_not_digit a h), if_neg (by simp)]

theorem matchNumDash_alpha_none (a : Char) (rest : List Char)
    (h : isAsciiAlpha a = true) : matchNumDash (a :: rest) = none := by
  unfold matchNumDash
  rw [takeWhile_nil_of_head _ _ _ (alpha_not_digit a h), if_neg (by simp)]

theorem matchIsoDash_alpha_none (a : Char) (rest : List Char)
    (h : isAsciiAlpha a = true) : matchIsoDash (a :: rest) = none := by
  unfold matchIsoDash
  rw [takeWhile_nil_of_head _ _ _ (alpha_not_digit a h), if_neg (by simp)]

theorem matchMonthName_concat_comma (nm d y : List Char)
    (hnm : ∀ c ∈ nm, isAsciiAlpha c = true) (hnm1 : 1 ≤ nm.length)
    (hd : ∀ c ∈ d, c.isDigit = true) (hd1 : 1 ≤ d.length) (hd2 : d.length ≤ 2)
    (hy : ∀ c ∈ y, c.isDigit = true) (hy4 : y.length = 4) :
    matchMonthName (nm ++ ' ' :: (d ++ ',' :: ' ' :: y)) = some (nm, d, y) := by
  unfold matchMonthName
  rw [takeWhile_append_all _ nm _ hnm (head_cons_false _ _ _ (by decide)),
    dropWhile_append_all _ nm _ hnm (head_cons_false _ _ _ (by decide)),
    if_pos hnm1]
  try simp only
  rw [show (' ' :: (d ++ ',' :: ' ' :: y)) = [' '] ++ (d ++ ',' :: ' ' :: y) from rfl,
    takeWhile_append_all _ [' '] _ (by decide) (head_append_digit_not_space d _ hd1 hd),
    dropWhile_append_all _ [' '] _ (by decide) (head_append_digit_not_space d _ hd1 hd),
    if_pos (by decide)]
  try simp only
  rw [takeWhile_append_all _ d _ hd (head_cons_false _ _ _ (by decide)),
    dropWhile_append_all _ d _ hd (head_cons_false _ _ _ (by decide)),
    if_pos ⟨hd1, hd2⟩]
  try simp only
  rw [show skipComma (',' :: ' ' :: y) = ' ' :: y from by simp [skipComma]]
  rw [show (' ' :: y) = [' '] ++ y from rfl,
    takeWhile_append_all _ [' '] _ (by decide) (head_digits_not_space y (by omega) hy),
    dropWhile_append_all _ [' '] _ (by decide) (head_digits_not_space y (by omega) hy),
    if_pos (by decide)]
  try simp only
  rw [takeWhile_all _ y hy, dropWhile_all _ y hy, if_pos ⟨hy4, rfl⟩]

theorem matchMonthName_concat_nocomma (nm d y : List Char)
    (hnm : ∀ c ∈ nm, isAsciiAlpha c = true) (hnm1 : 1 ≤ nm.length)
    (hd : ∀ c ∈ d, c.isDigit = true) (hd1 : 1 ≤ d.length) (hd2 : d.length ≤ 2)
    (hy : ∀ c ∈ y, c.isDigit = true) (hy4 : y.length = 4) :
    matchMonthName (nm ++ ' ' :: (d ++ ' ' :: y)) = some (nm, d, y) := by
  unfold matchMonthName
  rw [takeWhile_append_all _ nm _ hnm (head_cons_false _ _ _ (by decide)),
    dropWhile_append_all _ nm _ hnm (head_cons_false _ _ _ (by decide)),
    if_pos hnm1]
  try simp only
  rw [show (' ' :: (d ++ ' ' :: y)) = [' '] ++ (d ++ ' ' :: y) from rfl,
    takeWhile_append_all _ [' '] _ (by decide) (head_append_digit_not_space d _ hd1 hd),
    dropWhile_append_all _ [' '] _ (by decide) (head_append_digit_not_space d _ hd1 hd),
    if_pos (by decide)]
  try simp only
  rw [takeWhile_append_all _ d _ hd (head_cons_false _ _ _ (by decide)),
    dropWhile_append_all _ d _ hd (head_cons_false _ _ _ (by decide)),
    if_pos ⟨hd1, hd2⟩]
  try simp only
  rw [show skipComma (' ' :: y) = ' ' :: y from by simp [skipComma]]
  rw [show (' ' :: y) = [' '] ++ y from rfl,
    takeWhile_append_all _ [' '] _ (by decide) (head_digits_not_space y (by omega) hy),
    dropWhile_append_all _ [' '] _ (by decide) (head_digits_not_space y (by omega) hy),
    if_pos (by decide)]
  try simp only
  rw [takeWhile_all _ y hy, dropWhile_all _ y hy, if_pos ⟨hy4, rfl⟩]

/-! ### Behaviour of `parseTransactionDate` on each documented format -/

theorem parse_slash_general (m d y : List Char)
    (hm : ∀ c ∈ m, c.isDigit = true) (hm1 : 1 ≤ m.length) (hm2 : m.length ≤ 2)
    (hd : ∀ c ∈ d, c.isDigit = true) (hd1 : 1 ≤ d.length) (hd2 : d.length ≤ 2)
    (hy : ∀ c ∈ y, c.isDigit = true) (hy4 : y.length = 4) :
    parseTransactionDate (String.mk (m ++ '/' :: (d ++ '/' :: y))) =
      some (String.mk (y ++ '-' :: pad2 m ++ '-' :: pad2 d)) := by
  unfold parseTransactionDate
  rw [show (String.mk (m ++ '/' :: (d ++ '/' :: y))).data = m ++ '/' :: (d ++ '/' :: y)
        from rfl,
    matchNumSlash_concat m d y hm hm1 hm2 hd hd1 hd2 hy hy4]

theorem parse_dash_general (m d y : List Char)
    (hm : ∀ c ∈ m, c.isDigit = true) (hm1 : 1 ≤ m.length) (hm2 : m.length ≤ 2)
    (hd : ∀ c ∈ d, c.isDigit = true) (hd1 : 1 ≤ d.length) (hd2 : d.length ≤ 2)
    (hy : ∀ c ∈ y, c.isDigit = true) (hy4 : y.length = 4) :
    parseTransactionDate (String.mk (m ++ '-' :: (d ++ '-' :: y))) =
      some (String.mk (y ++ '-' :: pad2 m ++ '-' :: pad2 d)) := by
  unfold parseTransactionDate
  rw [show (String.mk (m ++ '-' :: (d ++ '-' :: y))).data = m ++ '-' :: (d ++ '-' :: y)
        from rfl,
    matchNumSlash_dashSep_none m _ hm ⟨hm1, hm2⟩]
  try simp only
  rw [matchNumDash_concat m d y hm hm1 hm2 hd hd1 hd2 hy hy4]

theorem parse_iso_general (y m d : List Char)
    (hy : ∀ c ∈ y, c.isDigit = true) (hy4 : y.length = 4)
    (hm : ∀ c ∈ m, c.isDigit = true) (hm1 : 1 ≤ m.length) (hm2 : m.length ≤ 2)
    (hd : ∀ c ∈ d, c.isDigit = true) (hd1 : 1 ≤ d.length) (hd2 : d.length ≤ 2) :
    parseTransactionDate (String.mk (y ++ '-' :: (m ++ '-' :: d))) =
      some (String.mk (y ++ '-' :: pad2 m ++ '-' :: pad2 d)) := by
  unfold parseTransactionDate
  rw [show (String.mk (y ++ '-' :: (m ++ '-' :: d))).data = y ++ '-' :: (m ++ '-' :: d)
        from rfl,
    matchNumSlash_len4_none y _ hy hy4]
  try simp only
  rw [matchNumDash_len4_none y _ hy hy4]
  try simp only
  rw [matchIsoDash_concat y m d hy hy4 hm hm1 hm2 hd hd1 hd2]

theorem parse_monthname_comma_general (nm m d y : List Char)
    (hnm : ∀ c ∈ nm, isAsciiAlpha c = true) (hnm1 : 1 ≤ nm.length)
    (hd : ∀ c ∈ d, c.isDigit = true) (hd1 : 1 ≤ d.length) (hd2 : d.length ≤ 2)
    (hy : ∀ c ∈ y, c.isDigit = true) (hy4 : y.length = 4)
    (hmo : monthLookup (lowerChars nm) = some (pad2 m)) :
    parseTransactionDate (String.mk (nm ++ ' ' :: (d ++ ',' :: ' ' :: y))) =
      some (String.mk (y ++ '-' :: pad2 m ++ '-' :: pad2 d)) := by
  cases nm with
  | nil => simp at hnm1
  | cons a t =>
    have ha : isAsciiAlpha a = true := hnm a (by simp)
    unfold parseTransactionDate
    rw [show (String.mk ((a :: t) ++ ' ' :: (d ++ ',' :: ' ' :: y))).data
          = a :: (t ++ ' ' :: (d ++ ',' :: ' ' :: y)) from by simp,
      matchNumSlash_alpha_none a _ ha]
    try simp only
    rw [matchNumDash_alpha_none a _ ha]
    try simp only
    rw [matchIsoDash_alpha_none a _ ha]
    try simp only
    rw [show a :: (t ++ ' ' :: (d ++ ',' :: ' ' :: y))
          = (a :: t) ++ ' ' :: (d ++ ',' :: ' ' :: y) from by simp,
      matchMonthName_concat_comma (a :: t) d y hnm hnm1 hd hd1 hd2 hy hy4]
    try simp only
    rw [hmo]

theorem parse_monthname_nocomma_general (nm m d y : List Char)
    (hnm : ∀ c ∈ nm, isAsciiAlpha c = true) (hnm1 : 1 ≤ nm.length)
    (hd : ∀ c ∈ d, c.isDigit = true) (hd1 : 1 ≤ d.length) (hd2 : d.length ≤ 2)
    (hy : ∀ c ∈ y, c.isDigit = true) (hy4 : y.length = 4)
    (hmo : monthLookup (lowerChars nm) = some (pad2 m)) :
    parseTransactionDate (String.mk (nm ++ ' ' :: (d ++ ' ' :: y))) =
      some (String.mk (y ++ '-' :: pad2 m ++ '-' :: pad2 d)) := by
  cases nm with
  | nil => simp at hnm1
  | cons a t =>
    have ha : isAsciiAlpha a = true := hnm a (by simp)
    unfold parseTransactionDate
    rw [show (String.mk ((a :: t) ++ ' ' :: (d ++ ' ' :: y))).data
          = a :: (t ++ ' ' :: (d ++ ' ' :: y)) from by simp,
      matchNumSlash_alpha_none a _ ha]
    try simp only
    rw [matchNumDash_alpha_none a _ ha]
    try simp only
    rw [matchIsoDash_alpha_none a _ ha]
    try simp only
    rw [show a :: (t ++ ' ' :: (d ++ ' ' :: y))
          = (a :: t) ++ ' ' :: (d ++ ' ' :: y) from by simp,
      matchMonthName_concat_nocomma (a :: t) d y hnm hnm1 hd hd1 hd2 hy hy4]
    try simp only
    rw [hmo]

theorem parse_monthname_unknown_none (nm d y : List Char)
    (hnm : ∀ c ∈ nm, isAsciiAlpha c = true) (hnm1 : 1 ≤ nm.length)
    (hd : ∀ c ∈ d, c.isDigit = true) (hd1 : 1 ≤ d.length) (hd2 : d.length ≤ 2)
    (hy : ∀ c ∈ y, c.isDigit = true) (hy4 : y.length = 4)
    (hmo : monthLookup (lowerChars nm) = none) :
    parseTransactionDate (String.mk (nm ++ ' ' :: (d ++ ',' :: ' ' :: y))) = none := by
  cases nm with
  | nil => simp at hnm1
  | cons a t =>
    have ha : isAsciiAlpha a = true := hnm a (by simp)
    unfold parseTransactionDate
    rw [show (String.mk ((a :: t) ++ ' ' :: (d ++ ',' :: ' ' :: y))).data
          = a :: (t ++ ' ' :: (d ++ ',' :: ' ' :: y)) from by simp,
      matchNumSlash_alpha_none a _ ha]
    try simp only
    rw [matchNumDash_alpha_none a _ ha]
    try simp only
    rw [matchIsoDash_alpha_none a _ ha]
    try simp only
    rw [show a :: (t ++ ' ' :: (d ++ ',' :: ' ' :: y))
          = (a :: t) ++ ' ' :: (d ++ ',' :: ' ' :: y) from by simp,
      matchMonthName_concat_comma (a :: t) d y hnm hnm1 hd hd1 hd2 hy hy4]
    try simp only
    rw [hmo]


/-! ## Claim C9 and C10: the date normalizer -/

/-- C9: the date normalizer maps each of the four documented input formats
(`MM/DD/YYYY`, `MM-DD-YYYY`, `YYYY-MM-DD`, and month-name `Month D, YYYY`
with recognized case-insensitive month names and optional comma) denoting
the same calendar date to the same canonical `YYYY-MM-DD` string, and
returns the distinguishable unparseable result `none` for an input
matching none of the formats, such as `"not a date"`. -/
theorem C9_date_normalizer_four_formats (m d y nm : List Char)
    (hm : ∀ c ∈ m, c.isDigit = true) (hm1 : 1 ≤ m.length) (hm2 : m.length ≤ 2)
    (hd : ∀ c ∈ d, c.isDigit = true) (hd1 : 1 ≤ d.length) (hd2 : d.length ≤ 2)
    (hy : ∀ c ∈ y, c.isDigit = true) (hy4 : y.length = 4)
    (hnm : ∀ c ∈ nm, isAsciiAlpha c = true) (hnm1 : 1 ≤ nm.length)
    (hmo : monthLookup (lowerChars nm) = some (pad2 m)) :
    parseTransactionDate (String.mk (m ++ '/' :: (d ++ '/' :: y))) =
      some (String.mk (y ++ '-' :: pad2 m ++ '-' :: pad2 d)) ∧
    parseTransactionDate (String.mk (m ++ '-' :: (d ++ '-' :: y))) =
      some (String.mk (y ++ '-' :: pad2 m ++ '-' :: pad2 d)) ∧
    parseTransactionDate (String.mk (y ++ '-' :: (m ++ '-' :: d))) =
      some (String.mk (y ++ '-' :: pad2 m ++ '-' :: pad2 d)) ∧
    parseTransactionDate (String.mk (nm ++ ' ' :: (d ++ ',' :: ' ' :: y))) =
      some (String.mk (y ++ '-' :: pad2 m ++ '-' :: pad2 d)) ∧
    parseTransactionDate (String.mk (nm ++ ' ' :: (d ++ ' ' :: y))) =
      some (String.mk (y ++ '-' :: pad2 m ++ '-' :: pad2 d)) ∧
    parseTransactionDate "not a date" = none := by
  refine ⟨?_, ?_, ?_, ?_, ?_, ?_⟩
  · exact parse_slash_general m d y hm hm1 hm2 hd hd1 hd2 hy hy4
  · exact parse_dash_general m d y hm hm1 hm2 hd hd1 hd2 hy hy4
  · exact parse_iso_general y m d hy hy4 hm hm1 hm2 hd hd1 hd2
  · exact parse_monthname_comma_general nm m d y hnm hnm1 hd hd1 hd2 hy hy4 hmo
  · exact parse_monthname_nocomma_general nm m d y hnm hnm1 hd hd1 hd2 hy hy4 hmo
  · decide

/-- Witness for C9 at the concrete inputs of the specification:
`"1/5/2024"`, `"01-05-2024"`, `"2024-01-05"` and `"Jan 5, 2024"` all
normalize to `"2024-01-05"`, and `"not a date"` is unparseable. -/
theorem C9_witness :
    parseTransactionDate "1/5/2024" = some "2024-01-05" ∧
    parseTransactionDate "01-05-2024" = some "2024-01-05" ∧
    parseTransactionDate "2024-01-05" = some "2024-01-05" ∧
    parseTransactionDate "Jan 5, 2024" = some "2024-01-05" ∧
    parseTransactionDate "not a date" = none := by
  have h1 := C9_date_normalizer_four_formats "1".data "5".data "2024".data "Jan".data
    (by decide) (by decide) (by decide) (by decide) (by decide) (by decide)
    (by decide) (by decide) (by decide) (by decide) (by decide)
  have h2 := C9_date_normalizer_four_formats "01".data "05".data "2024".data "Jan".data
    (by decide) (by decide) (by decide) (by decide) (by decide) (by decide)
    (by decide) (by decide) (by decide) (by decide) (by decide)
  obtain ⟨ha, -, -, hb, -, hc⟩ := h1
  obtain ⟨-, hd, he, -, -, -⟩ := h2
  refine ⟨?_, ?_, ?_, ?_, hc⟩
  · exact ha
  · exact hd
  · exact he
  · exact hb

/-- C10: the date normalizer performs no range validation on numeric date
components — every input matching one of the purely numeric patterns is
reformatted to the zero-padded string even when the month exceeds 12 or
the day exceeds 31 (`"13/45/2024"` yields `"2024-13-45"`), and only the
month-name format can match syntactically and still yield the
unparseable result, when the month name is not in the table. -/
theorem C10_no_range_validation :
    (∀ m d y : List Char,
      (∀ c ∈ m, c.isDigit = true) → 1 ≤ m.length → m.length ≤ 2 →
      (∀ c ∈ d, c.isDigit = true) → 1 ≤ d.length → d.length ≤ 2 →
      (∀ c ∈ y, c.isDigit = true) → y.length = 4 →
      parseTransactionDate (String.mk (m ++ '/' :: (d ++ '/' :: y))) =
        some (String.mk (y ++ '-' :: pad2 m ++ '-' :: pad2 d)) ∧
      parseTransactionDate (String.mk (m ++ '-' :: (d ++ '-' :: y))) =
        some (String.mk (y ++ '-' :: pad2 m ++ '-' :: pad2 d)) ∧
      parseTransactionDate (String.mk (y ++ '-' :: (m ++ '-' :: d))) =
        some (String.mk (y ++ '-' :: pad2 m ++ '-' :: pad2 d))) ∧
    parseTransactionDate "13/45/2024" = some "2024-13-45" ∧
    (∀ nm d y : List Char,
      (∀ c ∈ nm, isAsciiAlpha c = true) → 1 ≤ nm.length →
      (∀ c ∈ d, c.isDigit = true) → 1 ≤ d.length → d.length ≤ 2 →
      (∀ c ∈ y, c.isDigit = true) → y.length = 4 →
      monthLookup (lowerChars nm) = none →
      parseTransactionDate (String.mk (nm ++ ' ' :: (d ++ ',' :: ' ' :: y))) = none) := by
  refine ⟨?_, by decide, ?_⟩
  · intro m d y hm hm1 hm2 hd hd1 hd2 hy hy4
    exact ⟨parse_slash_general m d y hm hm1 hm2 hd hd1 hd2 hy hy4,
      parse_dash_general m d y hm hm1 hm2 hd hd1 hd2 hy hy4,
      parse_iso_general y m d hy hy4 hm hm1 hm2 hd hd1 hd2⟩
  · intro nm d y hnm hnm1 hd hd1 hd2 hy hy4 hmo
    exact parse_monthname_unknown_none nm d y hnm hnm1 hd hd1 hd2 hy hy4 hmo

/-- Witness for C10: the out-of-range instance and an unknown month name,
fully evaluated. -/
theorem C10_witness :
    parseTransactionDate "13/45/2024" = some "2024-13-45" ∧
    parseTransactionDate "99-99-2024" = some "2024-99-99" ∧
    parseTransactionDate "Foo 5, 2024" = none := by
  have h := C10_no_range_validation
  have h1 := h.1 "13".data "45".data "2024".data (by decide) (by decide) (by decide)
    (by decide) (by decide) (by decide) (by decide) (by decide)
  have h2 := h.1 "99".data "99".data "2024".data (by decide) (by decide) (by decide)
    (by decide) (by decide) (by decide) (by decide) (by decide)
  have h3 := h.2.2 "Foo".data "5".data "2024".data (by decide) (by decide) (by decide)
    (by decide) (by decide) (by decide) (by decide) (by decide)
  exact ⟨h1.1, h2.2.1, h3⟩

/-! ## Claim C8: the fingerprint generator -/

set_option maxRecDepth 4000 in
/-- C8: the fingerprint is a pure deterministic function of its inputs;
tuples equal after case/whitespace normalization of the merchant name —
such as `"Starbucks"` versus `"STARBUCKS "` — produce the identical
string, and tuples differing in a semantic field produce different
strings (witnessed here on concrete differing merchants, dates, amounts
and owners; with a 32-bit hash this cannot hold universally, which is
why the design document only claims it "with overwhelming probability"). -/
theorem C8_fingerprint_normalized_and_distinct :
    (∀ (u : String) (m1 m2 : String) (d : String) (a r : JsNum),
      trimChars (lowerChars m1.data) = trimChars (lowerChars m2.data) →
      generateTransactionId u m1 d a r = generateTransactionId u m2 d a r) ∧
    generateTransactionId "user1" "Starbucks" "2024-01-05" ⟨567, 2⟩ ⟨0, 0⟩ ≠
      generateTransactionId "user1" "Chipotle" "2024-01-05" ⟨567, 2⟩ ⟨0, 0⟩ ∧
    generateTransactionId "user1" "Starbucks" "2024-01-05" ⟨567, 2⟩ ⟨0, 0⟩ ≠
      generateTransactionId "user1" "Starbucks" "2024-01-06" ⟨567, 2⟩ ⟨0, 0⟩ ∧
    generateTransactionId "user1" "Starbucks" "2024-01-05" ⟨567, 2⟩ ⟨0, 0⟩ ≠
      generateTransactionId "user1" "Starbucks" "2024-01-05" ⟨568, 2⟩ ⟨0, 0⟩ ∧
    generateTransactionId "user1" "Starbucks" "2024-01-05" ⟨567, 2⟩ ⟨0, 0⟩ ≠
      generateTransactionId "user2" "Starbucks" "2024-01-05" ⟨567, 2⟩ ⟨0, 0⟩ := by
  refine ⟨?_, by decide, by decide, by decide, by decide⟩
  intro u m1 m2 d a r hnorm
  unfold generateTransactionId
  rw [hnorm]

set_option maxRecDepth 4000 in
/-- Witness for C8: `"Starbucks"` and `"STARBUCKS "` fingerprint
identically for concrete owner, date, amount and reward. -/
theorem C8_witness :
    generateTransactionId "user1" "Starbucks" "2024-01-05" ⟨567, 2⟩ ⟨0, 0⟩ =
      generateTransactionId "user1" "STARBUCKS " "2024-01-05" ⟨567, 2⟩ ⟨0, 0⟩ :=
  C8_fingerprint_normalized_and_distinct.1 "user1" "Starbucks" "STARBUCKS "
    "2024-01-05" ⟨567, 2⟩ ⟨0, 0⟩ (by decide)

/-! ## Claim C7: categorization resolution order -/

/-- Helper: writing to the global cache never changes the per-owner
override table. -/
theorem setGlobal_preserves_overrides (db : CatDB) (m c s : String) :
    (setGlobalMerchantCategory db m c s).overrides = db.overrides := by
  unfold setGlobalMerchantCategory
  split <;> rfl

/-- C7: category resolution short-circuits in the order per-owner
override, then global cache, then brand-keyword heuristic, then external
lookup; when an override exists its category is returned regardless of
the global cache; and the resolver writes only to the global cache,
never to the per-owner override table. -/
theorem C7_resolution_order :
    (∀ (db : CatDB) (u m : String) (k : Bool)
        (f : String → Option (List String)) (c : String),
      getUserMerchantCategory db u m = some c →
      resolveCategory db u m k f = (some c, db)) ∧
    (∀ (db : CatDB) (u m : String) (k : Bool)
        (f : String → Option (List String)) (c : String),
      getUserMerchantCategory db u m = none →
      getGlobalMerchantCategory db m = some c →
      resolveCategory db u m k f = (some c, db)) ∧
    (∀ (db : CatDB) (u m : String) (k : Bool)
        (f : String → Option (List String)) (c : String),
      getUserMerchantCategory db u m = none →
      getGlobalMerchantCategory db m = none →
      categorizeByCommonName m = some c →
      resolveCategory db u m k f =
        (some c, setGlobalMerchantCategory db m c "common_name")) ∧
    (∀ (db : CatDB) (u m : String)
        (f : String → Option (List String)) (c : String),
      getUserMerchantCategory db u m = none →
      getGlobalMerchantCategory db m = none →
      categorizeByCommonName m = none →
      categorizeMerchant f m = some c →
      resolveCategory db u m true f =
        (some c, setGlobalMerchantCategory db m c "google_places")) ∧
    (∀ (db : CatDB) (u m : String) (k : Bool)
        (f : String → Option (List String)),
      (resolveCategory db u m k f).2.overrides = db.overrides) := by
  refine ⟨?_, ?_, ?_, ?_, ?_⟩
  · intro db u m k f c h
    unfold resolveCategory
    rw [h]
  · intro db u m k f c h1 h2
    unfold resolveCategory
    rw [h1, h2]
  · intro db u m k f c h1 h2 h3
    unfold resolveCategory
    rw [h1, h2, h3]
  · intro db u m f c h1 h2 h3 h4
    unfold resolveCategory
    rw [h1, h2, h3, if_pos rfl]
    unfold getMerchantCategory
    rw [h3, h4]
  · intro db u m k f
    unfold resolveCategory
    split
    · rfl
    · split
      · rfl
      · split
        · exact setGlobal_preserves_overrides db m _ "common_name"
        · split
          · split
            · exact setGlobal_preserves_overrides db m _ "google_places"
            · rfl
          · rfl

/-- Witness for C7: a merchant with both a per-owner override and a
global-cache entry (case-insensitively matching `"STARBUCKS"`) resolves
to the override's category, and the tables are unchanged. -/
theorem C7_witness :
    resolveCategory
      ⟨[⟨"u1", "Starbucks", "Travel"⟩],
       [⟨"starbucks", "Food & Dining", "common_name"⟩]⟩
      "u1" "STARBUCKS" true (fun _ => none) =
    (some "Travel",
      ⟨[⟨"u1", "Starbucks", "Travel"⟩],
       [⟨"starbucks", "Food & Dining", "common_name"⟩]⟩) :=
  C7_resolution_order.1
    ⟨[⟨"u1", "Starbucks", "Travel"⟩],
     [⟨"starbucks", "Food & Dining", "common_name"⟩]⟩
    "u1" "STARBUCKS" true (fun _ => none) "Travel" (by decide)

/-! ## Claim C1: idempotent insert and the added/duplicates counts -/

set_option maxRecDepth 8000 in
/-- C1 (failing-input evaluation): processing the same candidate twice —
within one job, and again via a replayed job — stores exactly one
transaction row, as claimed; but the result summary counts the second
insert as *added*, not as a duplicate.  `ON CONFLICT (id) DO NOTHING`
completes without raising the 23505 unique-violation that the `catch`
branch counts as a duplicate, so `duplicates` stays 0 and `added`
counts every candidate: the duplicated candidate in one job yields
(rows, added, duplicates) = (1, 2, 0), and the replayed job reports
(1, 1, 0) although it stored nothing new. -/
theorem C1_second_insert_counted_as_added :
    insertLoopSummary (processCandidates "user1" false (fun _ => none)
      [⟨"Starbucks", "01/15/2024", ⟨567, 2⟩, some ⟨123, 8⟩⟩,
       ⟨"Starbucks", "01/15/2024", ⟨567, 2⟩, some ⟨123, 8⟩⟩]
      ⟨[], []⟩ [] 0 0) = (1, 2, 0) ∧
    insertLoopSummary (replayJob "user1" false (fun _ => none)
      [⟨"Starbucks", "01/15/2024", ⟨567, 2⟩, some ⟨123, 8⟩⟩]) = (1, 1, 0) := by
  exact ⟨by decide, by decide⟩

/-! ## Lemmas about the job-store operations -/

theorem insertSorted_perm (j : Job) (l : JobStore) :
    (insertSorted j l).Perm (j :: l) := by
  induction l with
  | nil => exact List.Perm.refl _
  | cons k rest ih =>
    unfold insertSorted
    split
    · exact List.Perm.refl _
    · exact List.Perm.trans (List.Perm.cons k ih) (List.Perm.swap j k rest)

theorem sortByCreated_perm (l : JobStore) : (sortByCreated l).Perm l := by
  induction l with
  | nil => exact List.Perm.refl _
  | cons x rest ih =>
    have h1 : sortByCreated (x :: rest) = insertSorted x (sortByCreated rest) := rfl
    rw [h1]
    exact List.Perm.trans (insertSorted_perm x (sortByCreated rest)) (List.Perm.cons x ih)

/-- Order used by the job selections. -/
def createdLe (a b : Job) : Prop := a.createdAt ≤ b.createdAt

theorem insertSorted_pairwise (j : Job) (l : JobStore)
    (h : List.Pairwise createdLe l) :
    List.Pairwise createdLe (insertSorted j l) := by
  induction l with
  | nil => simp [insertSorted, List.pairwise_cons]
  | cons k rest ih =>
    have h' := List.pairwise_cons.mp h
    unfold insertSorted
    split
    · rename_i hlt
      refine List.pairwise_cons.mpr ⟨?_, h⟩
      intro b hb
      rcases List.mem_cons.mp hb with hb | hb
      · subst hb
        exact Nat.le_of_lt hlt
      · exact Nat.le_trans (Nat.le_of_lt hlt) (h'.1 b hb)
    · rename_i hge
      refine List.pairwise_cons.mpr ⟨?_, ih h'.2⟩
      intro b hb
      have hb' : b ∈ j :: rest := (insertSorted_perm j rest).mem_iff.mp hb
      rcases List.mem_cons.mp hb' with hb' | hb'
      · subst hb'
        exact Nat.le_of_not_lt hge
      · exact h'.1 b hb'

theorem sortByCreated_pairwise (l : JobStore) :
    List.Pairwise createdLe (sortByCreated l) := by
  induction l with
  | nil => exact List.Pairwise.nil
  | cons x rest ih => exact insertSorted_pairwise x (sortByCreated rest) ih

theorem mem_sortByCreated (j : Job) (l : JobStore) :
    j ∈ sortByCreated l ↔ j ∈ l :=
  (sortByCreated_perm l).mem_iff

theorem selectOldestPending_mem (n : Nat) (s : JobStore) :
    ∀ j ∈ selectOldestPending n s, j ∈ s ∧ j.status = JobStatus.pending := by
  intro j hj
  unfold selectOldestPending at hj
  have h1 := List.take_subset _ _ hj
  have h2 := (mem_sortByCreated j _).mp h1
  have h3 := List.mem_filter.mp h2
  exact ⟨h3.1, by simpa using h3.2⟩

/-- Count of pending jobs. -/
def pendingCount (s : JobStore) : Nat :=
  s.countP (fun j => j.status == JobStatus.pending)

theorem selectOldestPending_length (n : Nat) (s : JobStore) :
    (selectOldestPending n s).length = min n (pendingCount s) := by
  unfold selectOldestPending pendingCount
  rw [List.length_take, (sortByCreated_perm _).length_eq,
    List.countP_eq_length_filter]

theorem contains_mem_iff (l : List Nat) (a : Nat) : l.contains a = true ↔ a ∈ l :=
  List.elem_iff

theorem claimPending_ret_ids (n now : Nat) (s : JobStore) :
    (claimPending n now s).2.map (fun j => j.id) =
      (selectOldestPending n s).map (fun j => j.id) := by
  have h : (claimPending n now s).2 = (selectOldestPending n s).map (claimUpd now) := rfl
  rw [h, List.map_map]
  exact List.map_congr_left (fun a _ => rfl)

/-- A pending row of the post-claim store was not among the claimed ids:
each selected id now carries status processing. -/
theorem claim_store_pending_not_selected (n now : Nat) (s : JobStore) :
    ∀ j ∈ (claimPending n now s).1, j.status = JobStatus.pending →
      j.id ∉ (selectOldestPending n s).map (fun k => k.id) := by
  intro j hj hpend hid
  have h : (claimPending n now s).1 = s.map (fun k =>
      if ((selectOldestPending n s).map (fun k => k.id)).contains k.id then
        claimUpd now k else k) := rfl
  rw [h] at hj
  rcases List.mem_map.mp hj with ⟨k, hk, hfk⟩
  by_cases hc : ((selectOldestPending n s).map (fun k => k.id)).contains k.id = true
  · rw [if_pos hc] at hfk
    rw [← hfk] at hpend
    exact absurd hpend (by simp [claimUpd])
  · rw [if_neg hc] at hfk
    subst hfk
    exact hc ((contains_mem_iff _ _).mpr hid)

/-- Every returned row is the claimed update of a pending source row. -/
theorem claim_ret_shape (n now : Nat) (s : JobStore) :
    ∀ jr ∈ (claimPending n now s).2, ∃ j0, j0 ∈ s ∧
      j0.status = JobStatus.pending ∧ jr = claimUpd now j0 := by
  intro jr hjr
  have h : (claimPending n now s).2 = (selectOldestPending n s).map (claimUpd now) := rfl
  rw [h] at hjr
  rcases List.mem_map.mp hjr with ⟨j0, hj0, hup⟩
  rcases selectOldestPending_mem n s j0 hj0 with ⟨hmem, hpend⟩
  exact ⟨j0, hmem, hpend, hup.symm⟩

/-- A claim transitions exactly the rows it returns: a pending source row
whose id was returned is stored updated, and one whose id was not
returned is stored unchanged. -/
theorem claim_exact_transition (n now : Nat) (s : JobStore) :
    ∀ j0 ∈ s, (j0.id ∈ (claimPending n now s).2.map (fun j => j.id) →
        claimUpd now j0 ∈ (claimPending n now s).1) ∧
      (j0.id ∉ (claimPending n now s).2.map (fun j => j.id) →
        j0 ∈ (claimPending n now s).1) := by
  intro j0 hj0
  rw [claimPending_ret_ids]
  have h : (claimPending n now s).1 = s.map (fun k =>
      if ((selectOldestPending n s).map (fun k => k.id)).contains k.id then
        claimUpd now k else k) := rfl
  constructor
  · intro hin
    rw [h]
    have hmap : (if ((selectOldestPending n s).map (fun k => k.id)).contains j0.id then
        claimUpd now j0 else j0) ∈ s.map (fun k =>
          if ((selectOldestPending n s).map (fun k => k.id)).contains k.id then
            claimUpd now k else k) :=
      List.mem_map_of_mem _ hj0
    rwa [if_pos ((contains_mem_iff _ _).mpr hin)] at hmap
  · intro hout
    rw [h]
    have hmap : (if ((selectOldestPending n s).map (fun k => k.id)).contains j0.id then
        claimUpd now j0 else j0) ∈ s.map (fun k =>
          if ((selectOldestPending n s).map (fun k => k.id)).contains k.id then
            claimUpd now k else k) :=
      List.mem_map_of_mem _ hj0
    rwa [if_neg (fun hc => hout ((contains_mem_iff _ _).mp hc))] at hmap

/-- Claimed rows are oldest-first: any returned row is at least as old as
every pending row that was left unclaimed. -/
theorem claim_oldest_first (n now : Nat) (s : JobStore) :
    ∀ jr ∈ (claimPending n now s).2, ∀ k ∈ s, k.status = JobStatus.pending →
      k.id ∉ (claimPending n now s).2.map (fun j => j.id) →
      jr.createdAt ≤ k.createdAt := by
  intro jr hjr k hk hpend hkid
  rw [claimPending_ret_ids] at hkid
  have h : (claimPending n now s).2 = (selectOldestPending n s).map (claimUpd now) := rfl
  rw [h] at hjr
  rcases List.mem_map.mp hjr with ⟨j0, hj0, hup⟩
  have hj0' : j0 ∈ (sortByCreated (s.filter (fun j => j.status == JobStatus.pending))).take n := hj0
  have hpair : List.Pairwise createdLe
      (sortByCreated (s.filter (fun j => j.status == JobStatus.pending))) :=
    sortByCreated_pairwise _
  have hk1 : k ∈ sortByCreated (s.filter (fun j => j.status == JobStatus.pending)) :=
    (mem_sortByCreated k _).mpr (List.mem_filter.mpr ⟨hk, by simp [hpend]⟩)
  have hsplit := List.take_append_drop n
    (sortByCreated (s.filter (fun j => j.status == JobStatus.pending)))
  have hk2 : k ∈ (sortByCreated (s.filter (fun j => j.status == JobStatus.pending))).take n ++
      (sortByCreated (s.filter (fun j => j.status == JobStatus.pending))).drop n := by
    rw [hsplit]
    exact hk1
  rcases List.mem_append.mp hk2 with hk2 | hk2
  · exact absurd (List.mem_map_of_mem (fun j => j.id) hk2) hkid
  · have hcross := (List.pairwise_append.mp (by rw [hsplit]; exact hpair)).2.2
    have hle := hcross j0 hj0' k hk2
    rw [← hup]
    exact hle

/-! ## Claim C2: exclusivity and exactness of the atomic claim -/

/-- C2: the claim statement is modelled as one atomic store transition
(the design document stipulates "a single atomic conditional
update-and-return against the durable store"), so two concurrent
invocations are some sequential order of the two statements.  In any
such order no job id is returned to both callers; each claim returns up
to `maxCount` rows — exactly `min maxCount (pending count)` — each
returned row being the processing-update of a pending row; a pending
row is transitioned exactly when its id is returned, others are stored
unchanged; and claimed rows are oldest-first by `created_at`. -/
theorem C2_claim_exclusive_atomic :
    (∀ (s : JobStore) (n1 now1 n2 now2 : Nat) (j1 j2 : Job),
      j1 ∈ (claimPending n1 now1 s).2 →
      j2 ∈ (claimPending n2 now2 (claimPending n1 now1 s).1).2 →
      j1.id ≠ j2.id) ∧
    (∀ (s : JobStore) (n now : Nat),
      (claimPending n now s).2.length = min n (pendingCount s)) ∧
    (∀ (s : JobStore) (n now : Nat) (jr : Job), jr ∈ (claimPending n now s).2 →
      jr.status = JobStatus.processing ∧ jr.startedAt = some now ∧
      ∃ j0, j0 ∈ s ∧ j0.status = JobStatus.pending ∧ jr = claimUpd now j0) ∧
    (∀ (s : JobStore) (n now : Nat) (j0 : Job), j0 ∈ s →
      (j0.id ∈ (claimPending n now s).2.map (fun j => j.id) →
        claimUpd now j0 ∈ (claimPending n now s).1) ∧
      (j0.id ∉ (claimPending n now s).2.map (fun j => j.id) →
        j0 ∈ (claimPending n now s).1)) ∧
    (∀ (s : JobStore) (n now : Nat) (jr k : Job), jr ∈ (claimPending n now s).2 →
      k ∈ s → k.status = JobStatus.pending →
      k.id ∉ (claimPending n now s).2.map (fun j => j.id) →
      jr.createdAt ≤ k.createdAt) := by
  refine ⟨?_, ?_, ?_, ?_, ?_⟩
  · intro s n1 now1 n2 now2 j1 j2 h1 h2 heq
    rcases claim_ret_shape n2 now2 (claimPending n1 now1 s).1 j2 h2 with
      ⟨j0, hmem, hpend, hup⟩
    have hnot := claim_store_pending_not_selected n1 now1 s j0 hmem hpend
    have hin : j1.id ∈ (claimPending n1 now1 s).2.map (fun j => j.id) :=
      List.mem_map_of_mem (fun j => j.id) h1
    rw [claimPending_ret_ids] at hin
    rw [heq, hup] at hin
    exact hnot hin
  · intro s n now
    have h : (claimPending n now s).2 = (selectOldestPending n s).map (claimUpd now) := rfl
    rw [h, List.length_map]
    exact selectOldestPending_length n s
  · intro s n now jr hjr
    rcases claim_ret_shape n now s jr hjr with ⟨j0, hmem, hpend, hup⟩
    subst hup
    exact ⟨rfl, rfl, j0, hmem, hpend, rfl⟩
  · intro s n now j0 hj0
    exact claim_exact_transition n now s j0 hj0
  · exact fun s n now jr k hjr hk hp hid => claim_oldest_first n now s jr hjr k hk hp hid

/-- Witness for C2: two sequential `claimPending 1` calls against two
pending jobs return different jobs (ids 1 and 2), evaluated concretely. -/
theorem C2_witness :
    (claimUpd 100 ⟨1, JobStatus.pending, 10, none, 0⟩).id ≠
      (claimUpd 200 ⟨2, JobStatus.pending, 20, none, 0⟩).id :=
  C2_claim_exclusive_atomic.1
    [⟨1, JobStatus.pending, 10, none, 0⟩, ⟨2, JobStatus.pending, 20, none, 0⟩]
    1 100 1 200 _ _ (by decide) (by decide)

/-! ## Claim C3: stuck-job recovery -/

/-- Any pending row is returned by a claim given enough slots. -/
theorem pending_claimable (s : JobStore) (j : Job) (hj : j ∈ s)
    (hpend : j.status = JobStatus.pending) (n now : Nat)
    (hn : pendingCount s ≤ n) :
    ∃ jr ∈ (claimPending n now s).2, jr.id = j.id := by
  have hlen : (sortByCreated (s.filter (fun k => k.status == JobStatus.pending))).length =
      pendingCount s := by
    rw [(sortByCreated_perm _).length_eq, pendingCount, List.countP_eq_length_filter]
  have hsel : selectOldestPending n s =
      sortByCreated (s.filter (fun k => k.status == JobStatus.pending)) := by
    unfold selectOldestPending
    exact List.take_of_length_le (by rw [hlen]; exact hn)
  have hjmem : j ∈ selectOldestPending n s := by
    rw [hsel, mem_sortByCreated]
    exact List.mem_filter.mpr ⟨hj, by simp [hpend]⟩
  refine ⟨claimUpd now j, ?_, rfl⟩
  have h : (claimPending n now s).2 = (selectOldestPending n s).map (claimUpd now) := rfl
  rw [h]
  exact List.mem_map_of_mem _ hjmem

/-- C3: after the stuck-job recovery statement, every job that was in
processing with `started_at` more than `JOB_TIMEOUT_MINUTES` (5 minutes)
in the past is back in pending and is returned by a subsequent claim
with enough slots; a processing job within the threshold is left
unchanged in processing. -/
theorem C3_stuck_recovery :
    (∀ (now : Nat) (s : JobStore) (j : Job) (t : Nat), j ∈ s →
      j.status = JobStatus.processing → j.startedAt = some t →
      t + JOB_TIMEOUT_MINUTES * 60 < now →
      { j with status := JobStatus.pending } ∈ recoverStuck now s) ∧
    (∀ (now : Nat) (s : JobStore) (j : Job) (t : Nat), j ∈ s →
      j.status = JobStatus.processing → j.startedAt = some t →
      ¬ t + JOB_TIMEOUT_MINUTES * 60 < now →
      j ∈ recoverStuck now s) ∧
    (∀ (now : Nat) (s : JobStore) (j : Job) (t : Nat) (n now2 : Nat), j ∈ s →
      j.status = JobStatus.processing → j.startedAt = some t →
      t + JOB_TIMEOUT_MINUTES * 60 < now →
      pendingCount (recoverStuck now s) ≤ n →
      ∃ jr ∈ (claimPending n now2 (recoverStuck now s)).2, jr.id = j.id) := by
  have hstale : ∀ (now : Nat) (s : JobStore) (j : Job) (t : Nat), j ∈ s →
      j.status = JobStatus.processing → j.startedAt = some t →
      t + JOB_TIMEOUT_MINUTES * 60 < now →
      { j with status := JobStatus.pending } ∈ recoverStuck now s := by
    intro now s j t hj hproc hstart hlt
    have hstuck : isStuck now j = true := by
      simp [isStuck, hproc, hstart, hlt]
    have hmap : (if isStuck now j then { j with status := JobStatus.pending } else j) ∈
        s.map (fun k => if isStuck now k then { k with status := JobStatus.pending } else k) :=
      List.mem_map_of_mem _ hj
    rw [if_pos hstuck] at hmap
    exact hmap
  refine ⟨hstale, ?_, ?_⟩
  · intro now s j t hj hproc hstart hge
    have hstuck : isStuck now j = false := by
      simp [isStuck, hproc, hstart]
      omega
    have hmap : (if isStuck now j then { j with status := JobStatus.pending } else j) ∈
        s.map (fun k => if isStuck now k then { k with status := JobStatus.pending } else k) :=
      List.mem_map_of_mem _ hj
    rw [if_neg (by simp [hstuck])] at hmap
    exact hmap
  · intro now s j t n now2 hj hproc hstart hlt hn
    have hmem := hstale now s j t hj hproc hstart hlt
    exact pending_claimable (recoverStuck now s) _ hmem rfl n now2 hn

/-- Witness for C3: with the clock at 400 seconds, a job started at 0 is
stale (0 + 300 < 400) and is recovered and claimable again, while a job
started at 350 stays in processing. -/
theorem C3_witness :
    ({ id := 1, status := JobStatus.pending, createdAt := 0,
        startedAt := some 0, retryCount := 0 : Job } ∈
      recoverStuck 400 [⟨1, JobStatus.processing, 0, some 0, 0⟩,
        ⟨2, JobStatus.processing, 5, some 350, 0⟩]) ∧
    (({ id := 2, status := JobStatus.processing, createdAt := 5,
        startedAt := some 350, retryCount := 0 : Job }) ∈
      recoverStuck 400 [⟨1, JobStatus.processing, 0, some 0, 0⟩,
        ⟨2, JobStatus.processing, 5, some 350, 0⟩]) ∧
    (∃ jr ∈ (claimPending 2 401 (recoverStuck 400
        [⟨1, JobStatus.processing, 0, some 0, 0⟩,
         ⟨2, JobStatus.processing, 5, some 350, 0⟩])).2, jr.id = 1) := by
  refine ⟨?_, ?_, ?_⟩
  · exact C3_stuck_recovery.1 400 _ ⟨1, JobStatus.processing, 0, some 0, 0⟩ 0
      (by decide) rfl rfl (by decide)
  · exact C3_stuck_recovery.2.1 400 _ ⟨2, JobStatus.processing, 5, some 350, 0⟩ 350
      (by decide) rfl rfl (by decide)
  · exact C3_stuck_recovery.2.2 400 _ ⟨1, JobStatus.processing, 0, some 0, 0⟩ 0 2 401
      (by decide) rfl rfl (by decide) (by decide)

/-! ## Lemmas about requeue and reachable stores -/

theorem ids_of_condMap (s : JobStore) (p : Job → Bool) (g : Job → Job)
    (hg : ∀ j, (g j).id = j.id) :
    ((s.map (fun j => if p j then g j else j)).map (fun j => j.id)) =
      s.map (fun j => j.id) := by
  rw [List.map_map]
  refine List.map_congr_left ?_
  intro a _
  show (if p a then g a else a).id = a.id
  by_cases h : p a = true
  · rw [if_pos h]
    exact hg a
  · rw [if_neg (by simp [h])]

theorem mem_of_condMap (s : JobStore) (p : Job → Bool) (g : Job → Job) :
    ∀ j ∈ s.map (fun j => if p j then g j else j),
      ∃ j0 ∈ s, j = j0 ∨ j = g j0 := by
  intro j hj
  rcases List.mem_map.mp hj with ⟨j0, hj0, hfj⟩
  by_cases h : p j0 = true
  · rw [if_pos h] at hfj
    exact ⟨j0, hj0, Or.inr hfj.symm⟩
  · rw [if_neg (by simp [h])] at hfj
    exact ⟨j0, hj0, Or.inl hfj.symm⟩

theorem requeue_sel_mem (s : JobStore) :
    ∀ k ∈ (sortByCreated (s.filter retryEligible)).take 2,
      k ∈ s ∧ retryEligible k = true := by
  intro k hk
  have h1 := List.take_subset _ _ hk
  have h2 := (mem_sortByCreated k _).mp h1
  exact List.mem_filter.mp h2

/-- Requeue only rewrites rows whose id was selected; with unique ids,
every rewritten row was an eligible failed row and its retry count rose
by exactly one while its status moved from failed to pending. -/
theorem requeueFailed_shape (s : JobStore)
    (hnodup : (s.map (fun j => j.id)).Nodup) :
    ∀ j ∈ requeueFailed s, ∃ j0, j0 ∈ s ∧
      (j = j0 ∨ (j0.status = JobStatus.failed ∧ j0.retryCount < 2 ∧
        j = { j0 with status := JobStatus.pending, retryCount := j0.retryCount + 1 })) := by
  intro j hj
  have h : requeueFailed s = s.map (fun k =>
      if (((sortByCreated (s.filter retryEligible)).take 2).map (fun j => j.id)).contains k.id then
        { k with status := JobStatus.pending, retryCount := k.retryCount + 1 }
      else k) := rfl
  rw [h] at hj
  rcases List.mem_map.mp hj with ⟨j0, hj0, hfj⟩
  by_cases hc : (((sortByCreated (s.filter retryEligible)).take 2).map
      (fun j => j.id)).contains j0.id = true
  · rw [if_pos hc] at hfj
    have hid := (contains_mem_iff _ _).mp hc
    rcases List.mem_map.mp hid with ⟨k, hk, hkid⟩
    rcases requeue_sel_mem s k hk with ⟨hkmem, helig⟩
    have hkj0 : k = j0 := List.inj_on_of_nodup_map hnodup hkmem hj0 hkid
    subst hkj0
    have helig' := helig
    unfold retryEligible at helig'
    simp only [Bool.and_eq_true, beq_iff_eq, decide_eq_true_eq] at helig'
    exact ⟨k, hkmem, Or.inr ⟨helig'.1, helig'.2, hfj.symm⟩⟩
  · rw [if_neg hc] at hfj
    exact ⟨j0, hj0, Or.inl hfj.symm⟩

/-- With unique ids, a row whose retry count reached the cap is never
selected by the requeue and is stored unchanged. -/
theorem requeueFailed_at_cap_unchanged (s : JobStore)
    (hnodup : (s.map (fun j => j.id)).Nodup) :
    ∀ j0 ∈ s, 2 ≤ j0.retryCount → j0 ∈ requeueFailed s := by
  intro j0 hj0 hcap
  have h : requeueFailed s = s.map (fun k =>
      if (((sortByCreated (s.filter retryEligible)).take 2).map (fun j => j.id)).contains k.id then
        { k with status := JobStatus.pending, retryCount := k.retryCount + 1 }
      else k) := rfl
  rw [h]
  have hnc : ¬ (((sortByCreated (s.filter retryEligible)).take 2).map
      (fun j => j.id)).contains j0.id = true := by
    intro hc
    have hid := (contains_mem_iff _ _).mp hc
    rcases List.mem_map.mp hid with ⟨k, hk, hkid⟩
    rcases requeue_sel_mem s k hk with ⟨hkmem, helig⟩
    have hkj0 : k = j0 := List.inj_on_of_nodup_map hnodup hkmem hj0 hkid
    subst hkj0
    unfold retryEligible at helig
    simp only [Bool.and_eq_true, beq_iff_eq, decide_eq_true_eq] at helig
    omega
  have hmap : (if (((sortByCreated (s.filter retryEligible)).take 2).map
      (fun j => j.id)).contains j0.id then
        { j0 with status := JobStatus.pending, retryCount := j0.retryCount + 1 }
      else j0) ∈ s.map (fun k =>
      if (((sortByCreated (s.filter retryEligible)).take 2).map (fun j => j.id)).contains k.id then
        { k with status := JobStatus.pending, retryCount := k.retryCount + 1 }
      else k) :=
    List.mem_map_of_mem _ hj0
  rwa [if_neg hnc] at hmap

/-- Every reachable store has unique job ids (the primary-key invariant). -/
theorem reachable_nodup (s : JobStore) (h : ReachableStore s) :
    (s.map (fun j => j.id)).Nodup := by
  induction h with
  | init => simp
  | step hr hstep ih =>
    rename_i s0 s1
    cases hstep with
    | enqueue id t hfresh =>
      unfold enqueueJob
      rw [List.map_append, List.nodup_append]
      refine ⟨ih, by simp, ?_⟩
      intro a ha hb
      simp only [List.map_cons, List.map_nil, List.mem_cons,
        List.not_mem_nil, or_false] at hb
      rcases List.mem_map.mp ha with ⟨j, hj, hid⟩
      subst hb
      exact hfresh j hj hid
    | requeue =>
      have he : (requeueFailed s0).map (fun j => j.id) = s0.map (fun j => j.id) :=
        ids_of_condMap s0 _ _ (fun j => rfl)
      rwa [he]
    | recover now =>
      have he : (recoverStuck now s0).map (fun j => j.id) = s0.map (fun j => j.id) :=
        ids_of_condMap s0 _ _ (fun j => rfl)
      rwa [he]
    | claim n now =>
      have he : ((claimPending n now s0).1).map (fun j => j.id) = s0.map (fun j => j.id) :=
        ids_of_condMap s0 _ _ (fun j => rfl)
      rwa [he]
    | markProcessing id now =>
      have he : (markProcessingJob id now s0).map (fun j => j.id) = s0.map (fun j => j.id) :=
        ids_of_condMap s0 _ _ (fun j => rfl)
      rwa [he]
    | complete id =>
      have he : (completeJob id s0).map (fun j => j.id) = s0.map (fun j => j.id) :=
        ids_of_condMap s0 _ _ (fun j => rfl)
      rwa [he]
    | fail id =>
      have he : (failJob id s0).map (fun j => j.id) = s0.map (fun j => j.id) :=
        ids_of_condMap s0 _ _ (fun j => rfl)
      rwa [he]

/-- The retry-count bound holds in every reachable store. -/
theorem reachable_retry_le_cap (s : JobStore) (h : ReachableStore s) :
    ∀ j ∈ s, j.retryCount ≤ 2 := by
  induction h with
  | init => intro j hj; simp at hj
  | step hr hstep ih =>
    rename_i s0 s1
    cases hstep with
    | enqueue id t hfresh =>
      intro j hj
      unfold enqueueJob at hj
      rcases List.mem_append.mp hj with hj | hj
      · exact ih j hj
      · simp only [List.mem_singleton] at hj
        subst hj
        exact Nat.zero_le 2
    | requeue =>
      intro j hj
      rcases requeueFailed_shape s0 (reachable_nodup s0 hr) j hj with ⟨j0, hj0, hc⟩
      rcases hc with hc | ⟨_, hlt, hc⟩
      · rw [hc]
        exact ih j0 hj0
      · rw [hc]
        show j0.retryCount + 1 ≤ 2
        omega
    | recover now =>
      intro j hj
      rcases mem_of_condMap s0 (isStuck now)
          (fun k => { k with status := JobStatus.pending }) j hj with ⟨j0, hj0, hc | hc⟩
      · rw [hc]
        exact ih j0 hj0
      · rw [hc]
        exact ih j0 hj0
    | claim n now =>
      intro j hj
      have hm : (claimPending n now s0).1 = s0.map (fun k =>
          if ((selectOldestPending n s0).map (fun j => j.id)).contains k.id then
            claimUpd now k else k) := rfl
      rw [hm] at hj
      rcases mem_of_condMap s0
          (fun k => ((selectOldestPending n s0).map (fun j => j.id)).contains k.id)
          (claimUpd now) j hj with ⟨j0, hj0, hc | hc⟩
      · rw [hc]
        exact ih j0 hj0
      · rw [hc]
        exact ih j0 hj0
    | markProcessing id now =>
      intro j hj
      rcases mem_of_condMap s0 (fun k => k.id == id) (claimUpd now) j hj with
        ⟨j0, hj0, hc | hc⟩
      · rw [hc]
        exact ih j0 hj0
      · rw [hc]
        exact ih j0 hj0
    | complete id =>
      intro j hj
      rcases mem_of_condMap s0 (fun k => k.id == id)
          (fun k => { k with status := JobStatus.completed }) j hj with ⟨j0, hj0, hc | hc⟩
      · rw [hc]
        exact ih j0 hj0
      · rw [hc]
        exact ih j0 hj0
    | fail id =>
      intro j hj
      rcases mem_of_condMap s0 (fun k => k.id == id)
          (fun k => { k with status := JobStatus.failed }) j hj with ⟨j0, hj0, hc | hc⟩
      · rw [hc]
        exact ih j0 hj0
      · rw [hc]
        exact ih j0 hj0

/-! ## Claim C4: bounded retry -/

/-- C4: every job the requeue statement rewrites goes from failed to
pending with `retry_count` incremented by exactly one and was below the
cap (2); a failed job at the cap is never selected and is stored
unchanged; consequently `retry_count` never exceeds the cap in any
store reachable by the worker's statements. -/
theorem C4_bounded_retry :
    (∀ s : JobStore, (s.map (fun j => j.id)).Nodup →
      ∀ j ∈ requeueFailed s, ∃ j0, j0 ∈ s ∧
        (j = j0 ∨ (j0.status = JobStatus.failed ∧ j0.retryCount < 2 ∧
          j = { j0 with status := JobStatus.pending, retryCount := j0.retryCount + 1 }))) ∧
    (∀ s : JobStore, (s.map (fun j => j.id)).Nodup →
      ∀ j0 ∈ s, 2 ≤ j0.retryCount → j0 ∈ requeueFailed s) ∧
    (∀ s : JobStore, ReachableStore s → ∀ j ∈ s, j.retryCount ≤ 2) := by
  exact ⟨requeueFailed_shape, requeueFailed_at_cap_unchanged, reachable_retry_le_cap⟩

/-- Witness for C4: a failed job at the retry cap is left untouched by
the requeue, and in the reachable one-job store the bound holds. -/
theorem C4_witness :
    ({ id := 1, status := JobStatus.failed, createdAt := 0, startedAt := none,
        retryCount := 2 : Job } ∈
      requeueFailed [⟨1, JobStatus.failed, 0, none, 2⟩]) ∧
    ({ id := 1, status := JobStatus.pending, createdAt := 0, startedAt := none,
        retryCount := 0 : Job }).retryCount ≤ 2 := by
  constructor
  · exact C4_bounded_retry.2.1 [⟨1, JobStatus.failed, 0, none, 2⟩] (by decide)
      ⟨1, JobStatus.failed, 0, none, 2⟩ (by decide) (by decide)
  · exact C4_bounded_retry.2.2 (enqueueJob 1 0 [])
      (ReachableStore.step ReachableStore.init
        (WorkerStep.enqueue 1 0 (by intro j hj; simp at hj)))
      ⟨1, JobStatus.pending, 0, none, 0⟩ (by decide)

/-! ## Claim C5: truncated-JSON repair -/

set_option maxRecDepth 40000 in
/-- C5 (failing-input evaluation): the full response `F` below is a valid
JSON array of (flat) transaction objects, and `T` is its truncation in
the middle of the second object (`T ++ R = F`).  The claim says the
truncation-repair path returns the fully-formed leading element; the
code instead throws "Could not parse transactions from response" and
the job is finalized as failed, because the span-extraction regex
`\[[\s\S]*\]` demands a closing bracket that a truncated flat array no
longer contains, so the repair scanner is never reached.  The last
conjunct shows the scanner logic itself, applied directly to the
truncated text, would have recovered the leading complete object —
the unguarded regex gate, not the scanner, loses the batch. -/
theorem C5_truncated_array_throws_before_repair :
    (jsonParseArr ("[\x7b\"merchant_name\": \"Store A\", \"transaction_date\": \"01/15/2024\", \"amount_spent\": 5.67, \"bitcoin_rewards\": 1.23\x7d, \x7b\"merchant_name\": \"Store B\", \"transaction_date\": \"01/16/2024\", \"amount_spent\": 3.5, \"bitcoin_rewards\": 0\x7d]" : String).data).isSome = true ∧
    ("[\x7b\"merchant_name\": \"Store A\", \"transaction_date\": \"01/15/2024\", \"amount_spent\": 5.67, \"bitcoin_rewards\": 1.23\x7d, \x7b\"merchant_na" : String) ++ "me\": \"Store B\", \"transaction_date\": \"01/16/2024\", \"amount_spent\": 3.5, \"bitcoin_rewards\": 0\x7d]" = "[\x7b\"merchant_name\": \"Store A\", \"transaction_date\": \"01/15/2024\", \"amount_spent\": 5.67, \"bitcoin_rewards\": 1.23\x7d, \x7b\"merchant_name\": \"Store B\", \"transaction_date\": \"01/16/2024\", \"amount_spent\": 3.5, \"bitcoin_rewards\": 0\x7d]" ∧
    extractParse "[\x7b\"merchant_name\": \"Store A\", \"transaction_date\": \"01/15/2024\", \"amount_spent\": 5.67, \"bitcoin_rewards\": 1.23\x7d, \x7b\"merchant_na" =
      Except.error "Could not parse transactions from response" ∧
    workerJobRun "user1" false (fun _ => none) "[\x7b\"merchant_name\": \"Store A\", \"transaction_date\": \"01/15/2024\", \"amount_spent\": 5.67, \"bitcoin_rewards\": 1.23\x7d, \x7b\"merchant_na" ⟨[], []⟩ [] =
      (JobOutcome.failedJob "Could not parse transactions from response", [], ⟨[], []⟩) ∧
    jsonParseArr ((("[\x7b\"merchant_name\": \"Store A\", \"transaction_date\": \"01/15/2024\", \"amount_spent\": 5.67, \"bitcoin_rewards\": 1.23\x7d, \x7b\"merchant_na" : String).data.take
        ((lastCompleteIndex ("[\x7b\"merchant_name\": \"Store A\", \"transaction_date\": \"01/15/2024\", \"amount_spent\": 5.67, \"bitcoin_rewards\": 1.23\x7d, \x7b\"merchant_na" : String).data).toNat + 1)) ++ [']']) =
      some [Json.obj [("merchant_name", Json.str "Store A"),
        ("transaction_date", Json.str "01/15/2024"),
        ("amount_spent", Json.num "5.67"),
        ("bitcoin_rewards", Json.num "1.23")]] := by
  refine ⟨?_, ?_, ?_, ?_, ?_⟩
  · rfl
  · rfl
  · rfl
  · rfl
  · rfl

/-! ## Claim C6: unparseable extraction output -/

/-- C6 (amended): when no JSON array span is found in the cleaned
response and the text plainly indicates no transactions (contains
"no transaction", "empty" or "[]" case-insensitively), extraction
returns the empty candidate list and the job completes with zero
counts instead of failing. -/
theorem C6_no_transactions_marker_empty :
    ∀ s : String, jsonSpan (stripCloseFence (stripOpenFence s.data)) = none →
      indicatesNoTransactions s = true →
      extractParse s = Except.ok [] ∧
      ∀ (u : String) (k : Bool) (f : String → Option (List String))
          (db : CatDB) (st : TxStore),
        workerJobRun u k f s db st = (JobOutcome.completed 0 0, st, db) := by
  intro s hspan hmark
  have hext : extractParse s = Except.ok [] := by
    unfold extractParse
    rw [hspan]
    try simp only
    rw [if_pos hmark]
  refine ⟨hext, ?_⟩
  intro u k f db st
  unfold workerJobRun
  rw [hext]
  rfl

set_option maxRecDepth 20000 in
/-- Counterexample for C6 as stated: a response that cannot be parsed as
a JSON array, cannot be repaired, and does not indicate "no
transactions" makes extraction throw, and the job transitions to
failed — extraction does not return an empty list. -/
theorem C6_counterexample_unparseable_fails_job :
    extractParse "Service temporarily unavailable" =
      Except.error "Could not parse transactions from response" ∧
    workerJobRun "user1" false (fun _ => none) "Service temporarily unavailable"
        ⟨[], []⟩ [] =
      (JobOutcome.failedJob "Could not parse transactions from response", [], ⟨[], []⟩) := by
  exact ⟨by rfl, by rfl⟩

set_option maxRecDepth 20000 in
/-- Witness for the amended C6 at a concrete marker-bearing response. -/
theorem C6_witness :
    extractParse "The frames show no transactions." = Except.ok [] ∧
    workerJobRun "user1" false (fun _ => none) "The frames show no transactions."
        ⟨[], []⟩ [] = (JobOutcome.completed 0 0, [], ⟨[], []⟩) := by
  have h := C6_no_transactions_marker_empty "The frames show no transactions."
    (by decide) (by decide)
  exact ⟨h.1, h.2 "user1" false (fun _ => none) ⟨[], []⟩ []⟩

end TxTracker
